import Mathlib

/-! # go-mysql: connection routing, validation and read/write split

A shallow embedding of `factory.go`, `context.go`, `config.go` and `mysql.go`.

Modelling conventions.

* `int64` values (`Mod`, bucket indices, selectors) are `Int`.  The code only
  compares them, counts a map and takes one remainder, so nothing overflows;
  the Go operator `%` is the truncated remainder, `Int.tmod`.
* A `*sql.DB` is `Option PoolId`: `none` is the nil pointer, `some p` the pool
  with identity `p`.  Pointer equality is equality of identities.
* The outside world (the MySQL driver and server) is an `Env` of oracles, and
  the pools that exist are tracked in a `World`: which pools `sql.Open`
  created and every `(*sql.DB).Close` call, in order.
* A Go map is an association list with distinct keys; `range` visits it in
  list order (Go leaves the order unspecified).
* A Go `panic` is an explicit outcome.
-/

namespace GoMysql

/-! ## Data model -/

/-- Identity of a connection pool (the address of a `sql.DB`). -/
abbrev PoolId := Nat

/-- ConfigInstance of `config.go`. -/
structure ConfigInstance where
  DSN : String
  DSNSlave : String
  Buckets : List Int
  deriving DecidableEq, Repr

/-- Errors returned as Go `error` values. -/
inductive Error where
  /-- Message `go-mysql: factory is not initialized`. -/
  | notInitialized
  /-- Message `go-mysql: mod should not be 0 when instances are set`. -/
  | modNotPositive
  /-- Message `go-mysql: invalid bucket index %v which is larger than mod %v`. -/
  | bucketTooLarge (b mod : Int)
  /-- Message `go-mysql: bucket index %v is defined more than once`. -/
  | bucketDuplicated (b : Int)
  /-- Message `go-mysql: indice of buckets in instances are missing %v`. -/
  | bucketsMissing (missing : List Int)
  /-- The error of `mysql.ParseDSN`. -/
  | invalidDSN (dsn : String)
  /-- The error of `sql.Open`. -/
  | openFailed (dsn : String)
  /-- The error of `db.Ping`. -/
  | pingFailed (dsn : String)
  /-- The error of `(*sql.DB).Close`. -/
  | closeFailed (p : PoolId)
  /-- The value of `ctx.Err()`: 0 for `context.Canceled`, 1 for `context.DeadlineExceeded`. -/
  | ctxErr (code : Nat)
  /-- An error reported by a statement on a pool. -/
  | sqlErr (code : Nat)
  deriving DecidableEq, Repr

/-- Go runtime panics and the explicit `panic(errors.New(...))` of `Factory.New`. -/
inductive Panic where
  /-- Message `go-mysql: factory is not initialized`. -/
  | notInitialized
  /-- Message `go-mysql: factory is not connected`. -/
  | notConnected
  /-- Message `go-mysql: missing instance index (forgot to call WithIndex?)`. -/
  | missingIndex
  /-- Message `go-mysql: no default master DSN`. -/
  | noDefaultMaster
  /-- Message `go-mysql: no cluster instance nor default master DSN`. -/
  | noClusterInstance
  /-- Runtime error: nil pointer dereference. -/
  | nilDeref
  /-- Runtime error: integer divide by zero. -/
  | divideByZero
  deriving DecidableEq, Repr

/-- The struct dbInstance of `factory.go`: a primary and a replica pool. -/
structure dbInstance where
  Master : Option PoolId
  Slave : Option PoolId
  deriving DecidableEq, Repr

/-- The struct dbConn of `factory.go`: the embedded default pair and the bucket map. -/
structure dbConn where
  Master : Option PoolId
  Slave : Option PoolId
  Instances : List (Int × dbInstance)
  deriving DecidableEq, Repr

/-- The embedded `dbInstance` of a `dbConn`. -/
def dbConn.dbInstance (conn : dbConn) : dbInstance :=
  { Master := conn.Master, Slave := conn.Slave }

/-- The struct Factory of `factory.go`; `connPtr` is the published table (`none` is nil). -/
structure Factory where
  unavailable : Bool
  dsn : String
  dsnSlave : String
  mod : Int
  instances : List ConfigInstance
  connMaxLifeTime : Int
  maxIdleConns : Int
  maxOpenConns : Int
  connPtr : Option dbConn
  deriving DecidableEq, Repr

/-! ## Go maps keyed by `int64` -/

/-- The lookup `m[k]` with its `ok` flag. -/
def mapLookup {α : Type} (m : List (Int × α)) (k : Int) : Option α :=
  match m with
  | [] => none
  | (k', v) :: rest => if k' = k then some v else mapLookup rest k

/-- The assignment `m[k] = v`: overwrite an existing key, else add one. -/
def mapInsert {α : Type} (m : List (Int × α)) (k : Int) (v : α) : List (Int × α) :=
  match m with
  | [] => [(k, v)]
  | (k', v') :: rest => if k' = k then (k, v) :: rest else (k', v') :: mapInsert rest k v

/-! ## `Factory.validateInstances` -/

/-- The inner loop `for _, b := range ins.Buckets` of validateInstances;
`buckets` is the key set of the map built so far. -/
def validateBuckets (mod : Int) (bs : List Int) (buckets : List Int) : Except Error (List Int) :=
  match bs with
  | [] => .ok buckets
  | b :: rest =>
    if b ≥ mod then .error (.bucketTooLarge b mod)
    else if b ∈ buckets then .error (.bucketDuplicated b)
    else validateBuckets mod rest (buckets ++ [b])

/-- The outer loop `for _, ins := range f.instances` of validateInstances. -/
def validateLoop (mod : Int) (instances : List ConfigInstance) (buckets : List Int) :
    Except Error (List Int) :=
  match instances with
  | [] => .ok buckets
  | ins :: rest =>
    match validateBuckets mod ins.Buckets buckets with
    | .error e => .error e
    | .ok buckets' => validateLoop mod rest buckets'

/-- The loop `for i := int64(0); i < f.mod; i++` collecting the missing indices. -/
def missingBuckets (mod : Int) (buckets : List Int) : List Int :=
  ((List.range mod.toNat).map (fun i => (i : Int))).filter (fun i => decide (i ∉ buckets))

/-- Factory.validateInstances of `factory.go`; `none` is the nil error. -/
def Factory.validateInstances (f : Factory) : Option Error :=
  if f.instances.length = 0 then none
  else if f.mod ≤ 0 then some .modNotPositive
  else
    match validateLoop f.mod f.instances [] with
    | .error e => some e
    | .ok buckets =>
      if (buckets.length : Int) ≠ f.mod then some (.bucketsMissing (missingBuckets f.mod buckets))
      else none

/-- All bucket indices of a configuration, in configuration order. -/
def allBuckets (instances : List ConfigInstance) : List Int :=
  (instances.map (fun ins => ins.Buckets)).flatten

/-- The bucket lists partition `{0, ..., m-1}`: `m > 0`, every index of `[0, m)` occurs
exactly once, and no index lies outside `[0, m)`. -/
def bucketsPartition (m : Int) (instances : List ConfigInstance) : Prop :=
  0 < m ∧ (∀ i : Int, 0 ≤ i → i < m → (allBuckets instances).count i = 1) ∧
    (∀ b ∈ allBuckets instances, 0 ≤ b ∧ b < m)

/-! ## The outside world -/

/-- Calls that the package issues on a pool. -/
inductive PoolCall where
  | BeginTx
  | ExecContext
  | PingContext
  | QueryContext
  | QueryRowContext
  | Stats
  deriving DecidableEq, Repr

/-- Behaviour of the driver and the server, which the package only observes. -/
structure Env where
  /-- Whether `mysql.ParseDSN` accepts the string. -/
  parseDSN : String → Bool
  /-- Whether `sql.Open` succeeds on the formatted DSN. -/
  sqlOpen : String → Bool
  /-- Whether `db.Ping` succeeds on the freshly opened pool. -/
  ping : PoolId → String → Bool
  /-- The error, if any, that `(*sql.DB).Close` reports for a pool. -/
  closeErr : PoolId → Option Error
  /-- The error, if any, that a statement reports on a pool. -/
  sqlErr : PoolId → PoolCall → String → Option Error

/-- The pools of the process: `opened` lists the pools created by `sql.Open` with their DSN,
`closeLog` lists every `Close` call made on a pool, `nextPool` is the next fresh identity. -/
structure World where
  nextPool : PoolId
  opened : List (PoolId × String)
  closeLog : List PoolId
  deriving DecidableEq, Repr

/-- Outcome of a function returning `error`: nil, an error, or a panic. -/
inductive Outcome where
  | ok
  | err (e : Error)
  | panic (p : Panic)
  deriving DecidableEq, Repr

/-! ## Opening pools: `Factory.openDB`, `dbInstance.openDBConn` -/

/-- Factory.openDB of `factory.go`.  Returns the world after the call, the pool pointer
(nil on every failure, also after a failed ping) and the error.  The pool sizing calls
(SetConnMaxLifetime, SetMaxIdleConns, SetMaxOpenConns) and the logging have no effect on what
is studied here and are left out. -/
def Factory.openDB (env : Env) (_f : Factory) (w : World) (dsn : String) :
    World × Option PoolId × Option Error :=
  if !env.parseDSN dsn then (w, none, some (.invalidDSN dsn))
  else if !env.sqlOpen dsn then (w, none, some (.openFailed dsn))
  else
    let db := w.nextPool
    let w1 : World := { w with nextPool := db + 1, opened := w.opened ++ [(db, dsn)] }
    if !env.ping db dsn then (w1, none, some (.pingFailed dsn))
    else (w1, some db, none)

/-- The method dbInstance.openDBConn of `factory.go`, on the receiver `db`. -/
def dbInstance.openDBConn (env : Env) (f : Factory) (w : World) (db : dbInstance)
    (dsn dsnSlave : String) : World × dbInstance × Option Error :=
  match f.openDB env w dsn with
  | (w1, master, some e) => (w1, { db with Master := master }, some e)
  | (w1, master, none) =>
    let db1 : dbInstance := { db with Master := master }
    if dsnSlave = "" then (w1, { db1 with Slave := db1.Master }, none)
    else
      match f.openDB env w1 dsnSlave with
      | (w2, slave, some e) => (w2, { db1 with Slave := slave }, some e)
      | (w2, slave, none) => (w2, { db1 with Slave := slave }, none)

/-! ## Closing pools: `dbInstance.Close`, `dbConn.Close` -/

/-- The method `(*sql.DB).Close`: a nil receiver panics, otherwise the call is logged. -/
def sqlClose (env : Env) (w : World) (db : Option PoolId) : World × Outcome :=
  match db with
  | none => (w, .panic .nilDeref)
  | some p =>
    let w1 : World := { w with closeLog := w.closeLog ++ [p] }
    match env.closeErr p with
    | some e => (w1, .err e)
    | none => (w1, .ok)

/-- The method dbInstance.Close of `factory.go`. -/
def dbInstance.Close (env : Env) (w : World) (db : dbInstance) : World × Outcome :=
  match sqlClose env w db.Master with
  | (w1, .ok) =>
    if db.Master ≠ db.Slave then
      match sqlClose env w1 db.Slave with
      | (w2, .ok) => (w2, .ok)
      | (w2, r) => (w2, r)
    else (w1, .ok)
  | (w1, r) => (w1, r)

/-- The loop `for _, ins := range conn.Instances` of dbConn.Close. -/
def closeInstances (env : Env) (w : World) (entries : List (Int × dbInstance)) : World × Outcome :=
  match entries with
  | [] => (w, .ok)
  | (_, ins) :: rest =>
    match ins.Close env w with
    | (w1, .ok) => closeInstances env w1 rest
    | (w1, r) => (w1, r)

/-- The method dbConn.Close of `factory.go`. -/
def dbConn.Close (env : Env) (w : World) (conn : dbConn) : World × Outcome :=
  match conn.dbInstance.Close env w with
  | (w1, .ok) => closeInstances env w1 conn.Instances
  | (w1, r) => (w1, r)

/-! ## `Factory.Conn` and `Factory.Close` -/

/-- The loop `for _, b := range ins.Buckets` of Conn: register `db` under every bucket. -/
def registerBuckets (instances : List (Int × dbInstance)) (bs : List Int) (db : dbInstance) :
    List (Int × dbInstance) :=
  match bs with
  | [] => instances
  | b :: rest => registerBuckets (mapInsert instances b db) rest db

/-- The loop `for _, ins := range f.instances` of Conn, returning at the first error. -/
def connInstances (env : Env) (f : Factory) (w : World) (conn : dbConn)
    (instances : List ConfigInstance) : World × dbConn × Option Error :=
  match instances with
  | [] => (w, conn, none)
  | ins :: rest =>
    match dbInstance.openDBConn env f w { Master := none, Slave := none } ins.DSN ins.DSNSlave with
    | (w1, _, some e) => (w1, conn, some e)
    | (w1, db, none) =>
      connInstances env f w1 { conn with Instances := registerBuckets conn.Instances ins.Buckets db }
        rest

/-- Factory.Conn of `factory.go`: the factory and the world after the call, and the returned
error.  A panic can only come from closing the displaced table. -/
def Factory.Conn (env : Env) (f : Factory) (w : World) : Factory × World × Outcome :=
  if f.unavailable then (f, w, .err .notInitialized)
  else
    match f.validateInstances with
    | some e => (f, w, .err e)
    | none =>
      let conn : dbConn := { Master := none, Slave := none, Instances := [] }
      let opened : World × dbConn × Option Error :=
        if f.dsn ≠ "" then
          match dbInstance.openDBConn env f w conn.dbInstance f.dsn f.dsnSlave with
          | (w1, db, e) => (w1, { conn with Master := db.Master, Slave := db.Slave }, e)
        else (w, conn, none)
      match opened with
      | (w1, _, some e) => (f, w1, .err e)
      | (w1, conn1, none) =>
        match connInstances env f w1 conn1 f.instances with
        | (w2, _, some e) => (f, w2, .err e)
        | (w2, conn2, none) =>
          let f1 : Factory := { f with connPtr := some conn2 }
          match f.connPtr with
          | none => (f1, w2, .ok)
          | some old =>
            match old.Close env w2 with
            | (w3, .panic p) => (f1, w3, .panic p)
            | (w3, _) => (f1, w3, .ok)

/-- Factory.Close of `factory.go`. -/
def Factory.Close (env : Env) (f : Factory) (w : World) : Factory × World × Outcome :=
  if f.unavailable then (f, w, .err .notInitialized)
  else
    match f.connPtr with
    | none => ({ f with connPtr := none }, w, .ok)
    | some conn =>
      match conn.Close env w with
      | (w1, r) => ({ f with connPtr := none }, w1, r)

/-- Factory.conn of `factory.go`: the atomic load of the published table. -/
def Factory.conn (f : Factory) : Option dbConn := f.connPtr

/-! ## Contexts and handles: `context.go`, `mysql.go` -/

/-- What the package reads of a `context.Context`: `ctx.Err()` and the value stored under
`keyMySQLIndex`. -/
structure Ctx where
  err : Option Error
  index : Option Int
  deriving DecidableEq, Repr

/-- WithIndex of `context.go`. -/
def WithIndex (ctx : Ctx) (idx : Int) : Ctx := { ctx with index := some idx }

/-- The function indexFromContext of `context.go`. -/
def indexFromContext (ctx : Ctx) : Int × Bool :=
  match ctx.index with
  | none => (0, false)
  | some v => (v, true)

/-- The struct MySQL of `mysql.go`. -/
structure MySQL where
  ctx : Ctx
  master : Option PoolId
  slave : Option PoolId
  useMaster : Bool
  deriving DecidableEq, Repr

/-- The function newMySQL of `mysql.go`; `useMaster` keeps its zero value. -/
def newMySQL (ctx : Ctx) (master slave : Option PoolId) : MySQL :=
  { ctx := ctx, master := master, slave := slave, useMaster := false }

/-- Factory.New of `factory.go`. -/
def Factory.New (f : Factory) (ctx : Ctx) : Except Panic MySQL :=
  if f.unavailable then .error .notInitialized
  else
    match f.conn with
    | none => .error .notConnected
    | some conn =>
      let (idx, ok) := indexFromContext ctx
      if !ok || conn.Instances.length = 0 then
        if conn.Master = none then
          if conn.Instances.length > 0 then .error .missingIndex
          else .error .noDefaultMaster
        else .ok (newMySQL ctx conn.Master conn.Slave)
      else if conn.Instances.length = 0 then .error .noClusterInstance
      else if f.mod = 0 then .error .divideByZero
      else
        let idx := idx.tmod f.mod
        match mapLookup conn.Instances idx with
        | none => .error .nilDeref
        | some ins => .ok (newMySQL ctx ins.Master ins.Slave)

/-- The method MySQL.db of `mysql.go`. -/
def MySQL.db (mysql : MySQL) (forceMaster : Bool) : Option PoolId :=
  if mysql.useMaster || forceMaster then mysql.master else mysql.slave

/-- What a handle operation returns and does: `result` is the returned value (nil is none;
a value records the pool and call that produced it), `err` the returned error, `calls` the
calls issued on pools in order, `panicked` a nil receiver. -/
structure OpResult where
  result : Option (PoolId × PoolCall)
  err : Option Error
  calls : List (PoolId × PoolCall)
  panicked : Bool
  deriving DecidableEq, Repr

/-- A call on `db` whose error makes the operation return a nil result. -/
def callPool (env : Env) (db : Option PoolId) (call : PoolCall) (query : String) : OpResult :=
  match db with
  | none => { result := none, err := none, calls := [], panicked := true }
  | some p =>
    match env.sqlErr p call query with
    | some e => { result := none, err := some e, calls := [(p, call)], panicked := false }
    | none => { result := some (p, call), err := none, calls := [(p, call)], panicked := false }

/-- The early return `if err = mysql.ctx.Err(); err != nil` shared by the operations. -/
def ctxFailed (e : Error) : OpResult :=
  { result := none, err := some e, calls := [], panicked := false }

/-- MySQL.BeginTx of `mysql.go`. -/
def MySQL.BeginTx (env : Env) (mysql : MySQL) : OpResult :=
  match mysql.ctx.err with
  | some e => ctxFailed e
  | none => callPool env (mysql.db true) .BeginTx ""

/-- MySQL.Exec of `mysql.go`. -/
def MySQL.Exec (env : Env) (mysql : MySQL) (query : String) : OpResult :=
  match mysql.ctx.err with
  | some e => ctxFailed e
  | none => callPool env (mysql.db true) .ExecContext query

/-- MySQL.Ping of `mysql.go`: returns only an error. -/
def MySQL.Ping (env : Env) (mysql : MySQL) : OpResult :=
  match mysql.ctx.err with
  | some e => ctxFailed e
  | none => { callPool env (mysql.db false) .PingContext "" with result := none }

/-- MySQL.Query of `mysql.go`. -/
def MySQL.Query (env : Env) (mysql : MySQL) (query : String) : OpResult :=
  match mysql.ctx.err with
  | some e => ctxFailed e
  | none => callPool env (mysql.db false) .QueryContext query

/-- MySQL.QueryRow of `mysql.go`: the row is returned with a nil error; a failure of the
statement shows only when the row is scanned. -/
def MySQL.QueryRow (_env : Env) (mysql : MySQL) (_query : String) : OpResult :=
  match mysql.ctx.err with
  | some e => ctxFailed e
  | none =>
    match mysql.db false with
    | none => { result := none, err := none, calls := [], panicked := true }
    | some p =>
      { result := some (p, .QueryRowContext), err := none, calls := [(p, .QueryRowContext)],
        panicked := false }

/-- MySQL.Stats of `mysql.go`: no context check. -/
def MySQL.Stats (mysql : MySQL) : OpResult :=
  match mysql.db false with
  | none => { result := none, err := none, calls := [], panicked := true }
  | some p => { result := some (p, .Stats), err := none, calls := [(p, .Stats)], panicked := false }

/-- MySQL.UseMaster of `mysql.go` on a heap of handles: `p` is the receiver pointer; the
copy `cp` is stored at a fresh address, which is returned with the new heap. -/
def MySQL.UseMaster (heap : List MySQL) (p : Nat) : Option (List MySQL × Nat) :=
  match heap[p]? with
  | none => none
  | some mysql =>
    let cp := mysql
    let cp := { cp with useMaster := true }
    some (heap ++ [cp], heap.length)

/-! ## Configurations: `config.go`, `NewFactory` -/

/-- The struct Config of `config.go`; durations are nanoseconds. -/
structure Config where
  DSN : String
  DSNSlave : String
  Mod : Int
  Instances : List ConfigInstance
  ConnMaxLifetime : Int
  MaxIdleConns : Int
  MaxOpenConns : Int
  deriving DecidableEq, Repr

/-- DefaultConnMaxLifetime of `config.go`: one hour. -/
def DefaultConnMaxLifetime : Int := 3600000000000

/-- DefaultMaxIdleConns of `config.go`. -/
def DefaultMaxIdleConns : Int := 10

/-- NewFactory of `factory.go`. -/
def NewFactory (config : Config) : Factory :=
  let config := if config.ConnMaxLifetime = 0 then
    { config with ConnMaxLifetime := DefaultConnMaxLifetime } else config
  let config := if config.MaxIdleConns = 0 then
    { config with MaxIdleConns := DefaultMaxIdleConns } else config
  { unavailable := false
    dsn := config.DSN
    dsnSlave := config.DSNSlave
    mod := config.Mod
    instances := config.Instances
    connMaxLifeTime := config.ConnMaxLifetime
    maxIdleConns := config.MaxIdleConns
    maxOpenConns := config.MaxOpenConns
    connPtr := none }

/-! ## Predicates used to state the properties of Conn -/

/-- The DSNs that `openDBConn` hands to `openDB` for one endpoint pair: the primary, and the
replica when it is not empty. -/
def pairDSNs (dsn dsnSlave : String) : List String :=
  if dsnSlave = "" then [dsn] else [dsn, dsnSlave]

/-- Every DSN that a Conn call may try to open, in the order of the attempts. -/
def usedDSNs (f : Factory) : List String :=
  (if f.dsn ≠ "" then pairDSNs f.dsn f.dsnSlave else []) ++
    (f.instances.map (fun ins => pairDSNs ins.DSN ins.DSNSlave)).flatten

/-- A DSN on which `openDB` must fail: it does not parse, or does not open, or no pool opened
on it answers the ping. -/
def dsnBroken (env : Env) (dsn : String) : Prop :=
  env.parseDSN dsn = false ∨ env.sqlOpen dsn = false ∨ ∀ p, env.ping p dsn = false

/-- The world `w1` differs from `w` only by pools opened after `w`: no `Close` call was made,
and the pools added to `opened` carry fresh identities. -/
def World.onlyOpened (w w1 : World) : Prop :=
  w1.closeLog = w.closeLog ∧ w.nextPool ≤ w1.nextPool ∧
    ∃ added : List (PoolId × String), w1.opened = w.opened ++ added ∧
      ∀ q ∈ added, w.nextPool ≤ q.1 ∧ q.1 < w1.nextPool

/-- Every pool opened between `w` and `w1` has received a `Close` call by `w1`. -/
def World.openedAreClosed (w w1 : World) : Prop :=
  ∀ q ∈ w1.opened, q ∉ w.opened → q.1 ∈ w1.closeLog

/-! ## The bucket of the specification -/

/-- The bucket as the specification words it, `((s % m) + m) % m`, with `%` the Go remainder. -/
def specBucket (s m : Int) : Int := ((s.tmod m) + m).tmod m

/-! ## Concrete configurations and worlds used in examples -/

/-- A server on which every well-formed DSN opens and pings, except those of the host `down`;
a DSN is well formed when it has the slash that separates the database name. -/
def liveEnv : Env :=
  { parseDSN := fun dsn => dsn.data.contains '/'
    sqlOpen := fun _ => true
    ping := fun _ dsn => dsn != "u:p@tcp(down:3306)/db"
    closeErr := fun _ => none
    sqlErr := fun _ _ _ => none }

/-- A process that has opened no pool yet. -/
def World.init : World := { nextPool := 0, opened := [], closeLog := [] }

/-- The background context: not cancelled, no selector. -/
def Ctx.background : Ctx := { err := none, index := none }

/-- A configuration with explicit DSN pair, modulus and instances and default pool sizes. -/
def mkConfig (dsn dsnSlave : String) (mod : Int) (instances : List ConfigInstance) : Config :=
  { DSN := dsn, DSNSlave := dsnSlave, Mod := mod, Instances := instances,
    ConnMaxLifetime := 0, MaxIdleConns := 0, MaxOpenConns := 0 }

/-- Modulus 2 with a single instance whose buckets are -1 and 0. -/
def cfgNegativeBucket : Config :=
  mkConfig "" "" 2 [{ DSN := "u:p@tcp(x:3306)/db", DSNSlave := "", Buckets := [-1, 0] }]

/-- Scenario A of the specification: modulus 4, buckets 0 and 1 on endpoint x, buckets 2 and 3
on endpoint y, no default endpoint. -/
def cfgScenarioA : Config :=
  mkConfig "" "" 4
    [{ DSN := "u:p@tcp(x:3306)/db", DSNSlave := "", Buckets := [0, 1] },
     { DSN := "u:p@tcp(y:3306)/db", DSNSlave := "", Buckets := [2, 3] }]

/-- The factory of scenario A after a successful Conn on the live server. -/
def factoryScenarioA : Factory := ((NewFactory cfgScenarioA).Conn liveEnv World.init).1

/-- A server that accepts every well-formed DSN but answers no ping. -/
def deadEnv : Env :=
  { parseDSN := fun dsn => dsn.data.contains '/'
    sqlOpen := fun _ => true
    ping := fun _ _ => false
    closeErr := fun _ => none
    sqlErr := fun _ _ _ => none }

/-- The world of scenario A after its successful Conn. -/
def worldScenarioA : World := ((NewFactory cfgScenarioA).Conn liveEnv World.init).2.1

/-- The configuration of TestMySQLConnFailed: the DSN `invalid`, nothing else. -/
def cfgInvalid : Config := mkConfig "invalid" "" 0 []

/-- Only a default endpoint, without replica and without instances. -/
def cfgDefaultOnly : Config := mkConfig "u:p@tcp(d:3306)/db" "" 0 []

/-- Neither a default endpoint nor instances. -/
def cfgEmpty : Config := mkConfig "" "" 0 []

/-- A default endpoint together with the instances of scenario A. -/
def cfgDefaultAndShards : Config :=
  mkConfig "u:p@tcp(d:3306)/db" "" 4
    [{ DSN := "u:p@tcp(x:3306)/db", DSNSlave := "", Buckets := [0, 1] },
     { DSN := "u:p@tcp(y:3306)/db", DSNSlave := "", Buckets := [2, 3] }]

/-- A default endpoint whose replica is the unreachable host. -/
def cfgReplicaDown : Config := mkConfig "u:p@tcp(d:3306)/db" "u:p@tcp(down:3306)/db" 0 []

/-- The cluster configuration of mysqlClusterFactory in `main_test.go`: modulus 4 and one
instance with buckets 0 to 3, no default endpoint. -/
def cfgClusterTest : Config :=
  mkConfig "" "" 4 [{ DSN := "u:p@tcp(x:3306)/db", DSNSlave := "", Buckets := [0, 1, 2, 3] }]

/-- The cluster configuration of the tests with a default endpoint added. -/
def cfgClusterWithDefault : Config :=
  mkConfig "u:p@tcp(d:3306)/db" "" 4
    [{ DSN := "u:p@tcp(x:3306)/db", DSNSlave := "", Buckets := [0, 1, 2, 3] }]

/-- The factory of a configuration after Conn on the live server, from the initial world. -/
def connectedFactory (config : Config) : Factory :=
  ((NewFactory config).Conn liveEnv World.init).1

/-- The world after Conn of a configuration on the live server, from the initial world. -/
def connectedWorld (config : Config) : World :=
  ((NewFactory config).Conn liveEnv World.init).2.1

/-- A handle on pools 7 (primary) and 8 (replica) with a live context. -/
def sampleHandle : MySQL := newMySQL Ctx.background (some 7) (some 8)

/-- A handle on pools 7 and 8 whose context is cancelled. -/
def cancelledHandle : MySQL :=
  newMySQL { err := some (.ctxErr 0), index := none } (some 7) (some 8)

/-! ## Theorems -/

/-- A world differs from itself by no pool. -/
theorem World.onlyOpened_refl (w : World) : w.onlyOpened w :=
  ⟨rfl, Nat.le_refl _, [], by simp, by simp⟩

/-- Opening pools in two stages is opening pools. -/
theorem World.onlyOpened_trans {w w1 w2 : World} (h1 : w.onlyOpened w1) (h2 : w1.onlyOpened w2) :
    w.onlyOpened w2 := by
  obtain ⟨hc1, hn1, a1, ho1, ha1⟩ := h1
  obtain ⟨hc2, hn2, a2, ho2, ha2⟩ := h2
  refine ⟨hc2.trans hc1, Nat.le_trans hn1 hn2, a1 ++ a2, by simp [ho2, ho1], ?_⟩
  intro q hq
  rcases List.mem_append.mp hq with h | h
  · obtain ⟨h3, h4⟩ := ha1 q h
    exact ⟨h3, Nat.lt_of_lt_of_le h4 hn2⟩
  · obtain ⟨h3, h4⟩ := ha2 q h
    exact ⟨Nat.le_trans hn1 h3, h4⟩

/-- The function openDB opens at most one fresh pool and closes none. -/
theorem openDB_onlyOpened (env : Env) (f : Factory) (w : World) (dsn : String) :
    w.onlyOpened (f.openDB env w dsn).1 := by
  unfold Factory.openDB
  by_cases hp : env.parseDSN dsn = true
  · by_cases ho : env.sqlOpen dsn = true
    · have hstep : w.onlyOpened
          { w with nextPool := w.nextPool + 1, opened := w.opened ++ [(w.nextPool, dsn)] } :=
        ⟨rfl, Nat.le_succ _, [(w.nextPool, dsn)], rfl, by simp⟩
      by_cases hg : env.ping w.nextPool dsn = true
      · simpa [hp, ho, hg] using hstep
      · simpa [hp, ho, hg] using hstep
    · simpa [hp, ho] using World.onlyOpened_refl w
  · simpa [hp] using World.onlyOpened_refl w

/-- On a broken DSN openDB returns an error. -/
theorem openDB_broken (env : Env) (f : Factory) (w : World) (dsn : String)
    (hb : dsnBroken env dsn) : ∃ e, (f.openDB env w dsn).2.2 = some e := by
  unfold Factory.openDB
  by_cases hp : env.parseDSN dsn = true
  · by_cases ho : env.sqlOpen dsn = true
    · have hg : env.ping w.nextPool dsn = false := by
        rcases hb with h | h | h
        · simp [hp] at h
        · simp [ho] at h
        · exact h _
      simp [hp, ho, hg]
    · simp [hp, ho]
  · simp [hp]

/-- The method openDBConn only opens fresh pools and closes none. -/
theorem openDBConn_onlyOpened (env : Env) (f : Factory) (w : World) (db : dbInstance)
    (dsn dsnSlave : String) : w.onlyOpened (db.openDBConn env f w dsn dsnSlave).1 := by
  unfold dbInstance.openDBConn
  have h1 := openDB_onlyOpened env f w dsn
  rcases hres : f.openDB env w dsn with ⟨w1, master, _ | e⟩
  · rw [hres] at h1
    by_cases hs : dsnSlave = ""
    · simpa [hs] using h1
    · have h2 := openDB_onlyOpened env f w1 dsnSlave
      rcases hres2 : f.openDB env w1 dsnSlave with ⟨w2, slave, _ | e2⟩
      · rw [hres2] at h2
        simpa [hs, hres2] using World.onlyOpened_trans h1 h2
      · rw [hres2] at h2
        simpa [hs, hres2] using World.onlyOpened_trans h1 h2
  · rw [hres] at h1
    simpa using h1

/-- With a broken DSN in the pair openDBConn returns an error. -/
theorem openDBConn_broken (env : Env) (f : Factory) (w : World) (db : dbInstance)
    (dsn dsnSlave : String) (hb : ∃ d ∈ pairDSNs dsn dsnSlave, dsnBroken env d) :
    ∃ e, (db.openDBConn env f w dsn dsnSlave).2.2 = some e := by
  unfold dbInstance.openDBConn
  rcases hres : f.openDB env w dsn with ⟨w1, master, _ | e⟩
  · by_cases hs : dsnSlave = ""
    · obtain ⟨d, hd, hbd⟩ := hb
      simp [pairDSNs, hs] at hd
      subst hd
      obtain ⟨e, he⟩ := openDB_broken env f w d hbd
      rw [hres] at he
      simp at he
    · obtain ⟨d, hd, hbd⟩ := hb
      simp [pairDSNs, hs] at hd
      rcases hd with hd | hd
      · subst hd
        obtain ⟨e, he⟩ := openDB_broken env f w d hbd
        rw [hres] at he
        simp at he
      · subst hd
        obtain ⟨e, he⟩ := openDB_broken env f w1 d hbd
        rcases hres2 : f.openDB env w1 d with ⟨w2, slave, _ | e2⟩
        · rw [hres2] at he
          simp at he
        · simp [hs, hres2]
  · simp

/-- The instance loop of Conn only opens fresh pools and closes none. -/
theorem connInstances_onlyOpened (env : Env) (f : Factory) (instances : List ConfigInstance) :
    ∀ (w : World) (conn : dbConn), w.onlyOpened (connInstances env f w conn instances).1 := by
  induction instances with
  | nil => intro w conn; simpa [connInstances] using World.onlyOpened_refl w
  | cons ins rest ih =>
    intro w conn
    unfold connInstances
    have h1 := openDBConn_onlyOpened env f w { Master := none, Slave := none } ins.DSN ins.DSNSlave
    rcases hres : dbInstance.openDBConn env f w { Master := none, Slave := none } ins.DSN
      ins.DSNSlave with ⟨w1, db, _ | e⟩
    · rw [hres] at h1
      simpa using World.onlyOpened_trans h1 (ih w1 _)
    · rw [hres] at h1
      simpa using h1

/-- With a broken DSN among the instances the loop of Conn returns an error. -/
theorem connInstances_broken (env : Env) (f : Factory) (instances : List ConfigInstance)
    (hb : ∃ d ∈ (instances.map (fun ins => pairDSNs ins.DSN ins.DSNSlave)).flatten,
      dsnBroken env d) :
    ∀ (w : World) (conn : dbConn), ∃ e, (connInstances env f w conn instances).2.2 = some e := by
  induction instances with
  | nil => simp at hb
  | cons ins rest ih =>
    intro w conn
    unfold connInstances
    rcases hres : dbInstance.openDBConn env f w { Master := none, Slave := none } ins.DSN
      ins.DSNSlave with ⟨w1, db, _ | e⟩
    · obtain ⟨d, hd, hbd⟩ := hb
      simp only [List.map_cons, List.flatten_cons, List.mem_append] at hd
      rcases hd with hd | hd
      · obtain ⟨e, he⟩ := openDBConn_broken env f w { Master := none, Slave := none } ins.DSN
          ins.DSNSlave ⟨d, hd, hbd⟩
        rw [hres] at he
        simp at he
      · simpa using ih ⟨d, hd, hbd⟩ w1 _
    · simp

/-- When Conn returns an error the factory is the one it was called on, and the world
changed only by pools opened during the call. -/
theorem Conn_err_frame (env : Env) (f : Factory) (w : World) (e : Error)
    (h : (f.Conn env w).2.2 = .err e) :
    (f.Conn env w).1 = f ∧ w.onlyOpened (f.Conn env w).2.1 := by
  unfold Factory.Conn at h ⊢
  by_cases hu : f.unavailable = true
  · simpa [hu] using World.onlyOpened_refl w
  · rcases hv : f.validateInstances with _ | ev
    · simp only [hu, hv] at h ⊢
      by_cases hd : f.dsn = ""
      · simp only [hd, ne_eq, not_true_eq_false, ↓reduceIte] at h ⊢
        have h2 := connInstances_onlyOpened env f f.instances w
          { Master := none, Slave := none, Instances := [] }
        rcases hres : connInstances env f w { Master := none, Slave := none, Instances := [] }
          f.instances with ⟨w2, conn2, _ | e2⟩
        · rw [hres] at h
          rcases hold : f.connPtr with _ | old
          · simp [hold] at h
          · simp only [hold] at h
            rcases hcl : old.Close env w2 with ⟨w3, _ | _ | _⟩ <;> simp [hcl] at h
        · rw [hres] at h2
          simpa [hres] using h2
      · simp only [hd, ne_eq, not_false_eq_true, ↓reduceIte] at h ⊢
        have h1 := openDBConn_onlyOpened env f w
          (dbConn.dbInstance { Master := none, Slave := none, Instances := [] }) f.dsn f.dsnSlave
        rcases hres1 : dbInstance.openDBConn env f w
          (dbConn.dbInstance { Master := none, Slave := none, Instances := [] }) f.dsn f.dsnSlave
          with ⟨w1, db, _ | e1⟩
        · rw [hres1] at h h1
          simp only at h ⊢
          have h2 := connInstances_onlyOpened env f f.instances w1
            { Master := db.Master, Slave := db.Slave, Instances := [] }
          rcases hres : connInstances env f w1
            { Master := db.Master, Slave := db.Slave, Instances := [] }
            f.instances with ⟨w2, conn2, _ | e2⟩
          · rw [hres] at h
            rcases hold : f.connPtr with _ | old
            · simp [hold] at h
            · simp only [hold] at h
              rcases hcl : old.Close env w2 with ⟨w3, _ | _ | _⟩ <;> simp [hcl] at h
          · rw [hres] at h2
            simpa [hres] using World.onlyOpened_trans h1 h2
        · rw [hres1] at h1
          simpa using h1
    · simpa [hu, hv] using World.onlyOpened_refl w

/-- Conn returns an error when the factory is unavailable, validation fails, or one of the
DSNs it tries is broken. -/
theorem Conn_fails_of_stage (env : Env) (f : Factory) (w : World)
    (h : f.unavailable = true ∨ f.validateInstances ≠ none ∨ ∃ d ∈ usedDSNs f, dsnBroken env d) :
    ∃ e, (f.Conn env w).2.2 = .err e := by
  unfold Factory.Conn
  by_cases hu : f.unavailable = true
  · simp [hu]
  · rcases hv : f.validateInstances with _ | ev
    · have hb : ∃ d ∈ usedDSNs f, dsnBroken env d := by
        rcases h with h | h | h
        · exact absurd h hu
        · exact absurd hv h
        · exact h
      obtain ⟨d, hd, hbd⟩ := hb
      simp only [hu, hv]
      by_cases hdsn : f.dsn = ""
      · simp only [hdsn, ne_eq, not_true_eq_false, ↓reduceIte]
        have hd2 : d ∈ (f.instances.map (fun ins => pairDSNs ins.DSN ins.DSNSlave)).flatten := by
          simpa [usedDSNs, hdsn] using hd
        obtain ⟨e, he⟩ := connInstances_broken env f f.instances ⟨d, hd2, hbd⟩ w
          { Master := none, Slave := none, Instances := [] }
        rcases hres : connInstances env f w { Master := none, Slave := none, Instances := [] }
          f.instances with ⟨w2, conn2, _ | e2⟩
        · rw [hres] at he
          simp at he
        · simp
      · simp only [hdsn, ne_eq, not_false_eq_true, ↓reduceIte]
        rcases hres1 : dbInstance.openDBConn env f w
          (dbConn.dbInstance { Master := none, Slave := none, Instances := [] }) f.dsn f.dsnSlave
          with ⟨w1, db, _ | e1⟩
        · simp only
          have hd2 : d ∈ (f.instances.map (fun ins => pairDSNs ins.DSN ins.DSNSlave)).flatten := by
            simp only [usedDSNs, ne_eq, hdsn, not_false_eq_true, ↓reduceIte, List.mem_append] at hd
            rcases hd with hd | hd
            · obtain ⟨e, he⟩ := openDBConn_broken env f w
                (dbConn.dbInstance { Master := none, Slave := none, Instances := [] })
                f.dsn f.dsnSlave ⟨d, hd, hbd⟩
              rw [hres1] at he
              simp at he
            · exact hd
          obtain ⟨e, he⟩ := connInstances_broken env f f.instances ⟨d, hd2, hbd⟩ w1
            { Master := db.Master, Slave := db.Slave, Instances := [] }
          rcases hres : connInstances env f w1
            { Master := db.Master, Slave := db.Slave, Instances := [] }
            f.instances with ⟨w2, conn2, _ | e2⟩
          · rw [hres] at he
            simp at he
          · simp
        · simp
    · simp [hu, hv]

/-- The calls issued by callPool: one on the pool, none on a nil pointer. -/
theorem callPool_calls (env : Env) (db : Option PoolId) (call : PoolCall) (query : String) :
    (callPool env db call query).calls = db.toList.map (fun p => (p, call)) := by
  unfold callPool
  cases db with
  | none => simp
  | some p =>
    simp only [Option.toList, List.map_cons, List.map_nil]
    split <;> rfl

/-- Every handle that New returns comes from newMySQL, with the forced-primary flag unset. -/
theorem New_useMaster_false (f : Factory) (ctx : Ctx) (h : MySQL) (hnew : f.New ctx = .ok h) :
    h.useMaster = false := by
  unfold Factory.New at hnew
  split at hnew
  · simp at hnew
  · split at hnew
    · simp at hnew
    · simp only at hnew
      split at hnew
      · split at hnew
        · split at hnew <;> simp at hnew
        · simp only [Except.ok.injEq] at hnew
          rw [← hnew]; rfl
      · split at hnew
        · simp at hnew
        · split at hnew
          · simp at hnew
          · split at hnew
            · simp at hnew
            · simp only [Except.ok.injEq] at hnew
              rw [← hnew]; rfl

/-- A successful openDB has opened exactly one pool, the one it returns. -/
theorem openDB_ok_opens (env : Env) (f : Factory) (w : World) (dsn : String) (w1 : World)
    (db : Option PoolId) (h : f.openDB env w dsn = (w1, db, none)) :
    ∃ p, db = some p ∧ w1.opened = w.opened ++ [(p, dsn)] := by
  unfold Factory.openDB at h
  by_cases hp : env.parseDSN dsn = true
  · by_cases ho : env.sqlOpen dsn = true
    · by_cases hg : env.ping w.nextPool dsn = true
      · simp only [hp, ho, hg, Bool.not_true, Bool.false_eq_true, ↓reduceIte, Prod.mk.injEq,
          and_true] at h
        obtain ⟨hw, hdb⟩ := h
        exact ⟨w.nextPool, hdb.symm, by rw [← hw]⟩
      · simp [hp, ho, hg] at h
    · simp [hp, ho] at h
  · simp [hp] at h

/-- For a selector that is not negative the Go remainder is the normalised bucket. -/
theorem tmod_eq_specBucket (s m : Int) (hs : 0 ≤ s) (hm : 0 < m) :
    s.tmod m = specBucket s m ∧ 0 ≤ s.tmod m ∧ s.tmod m < m := by
  have h0 : 0 ≤ s.tmod m := Int.tmod_nonneg m hs
  have h1 : s.tmod m < m := Int.tmod_lt_of_pos s hm
  refine ⟨?_, h0, h1⟩
  unfold specBucket
  rw [Int.tmod_eq_emod (a := s.tmod m + m) (by omega) (by omega)]
  rw [Int.add_emod_self]
  exact (Int.emod_eq_of_lt h0 h1).symm

/-- For a negative selector the Go remainder is never positive. -/
theorem tmod_nonpos_of_neg (s m : Int) (hs : s < 0) : s.tmod m ≤ 0 := by
  cases s with
  | ofNat n => exact absurd hs (by simp)
  | negSucc n =>
    cases m with
    | ofNat k =>
      show -Int.ofNat (n.succ % k) ≤ 0
      exact Int.neg_nonpos_of_nonneg (Int.ofNat_nonneg _)
    | negSucc k =>
      show -Int.ofNat (n.succ % k.succ) ≤ 0
      exact Int.neg_nonpos_of_nonneg (Int.ofNat_nonneg _)

/-- The key that New looks up: with a selector and a sharded bucket, New returns the instance
found under the Go remainder of the selector, and dereferences nil when there is none. -/
theorem New_sharded_lookup (f : Factory) (conn : dbConn) (ctx : Ctx) (s : Int)
    (hu : f.unavailable = false) (hc : f.connPtr = some conn) (hi : ctx.index = some s)
    (hne : conn.Instances ≠ []) (hmod : f.mod ≠ 0) :
    f.New ctx =
      match mapLookup conn.Instances (s.tmod f.mod) with
      | none => .error .nilDeref
      | some ins => .ok (newMySQL ctx ins.Master ins.Slave) := by
  have hlen : conn.Instances.length ≠ 0 := by
    intro h; exact hne (List.length_eq_zero.mp h)
  simp [Factory.New, Factory.conn, hu, hc, indexFromContext, hi, hlen, hmod]

/-- The inner loop of validateInstances succeeds exactly when the new indices are below the
modulus, not repeated and not yet in the map; it then adds them to the map. -/
theorem validateBuckets_ok (m : Int) (bs : List Int) :
    ∀ (acc r : List Int), validateBuckets m bs acc = .ok r ↔
      r = acc ++ bs ∧ (∀ b ∈ bs, b < m) ∧ bs.Nodup ∧ ∀ b ∈ bs, b ∉ acc := by
  induction bs with
  | nil => intro acc r; simp [validateBuckets, eq_comm]
  | cons b rest ih =>
    intro acc r
    unfold validateBuckets
    by_cases h1 : b ≥ m
    · simp only [h1, ↓reduceIte]
      refine ⟨fun h => by simp at h, ?_⟩
      rintro ⟨-, h, -⟩
      have := h b (List.mem_cons_self _ _)
      omega
    · by_cases h2 : b ∈ acc
      · simp only [h1, h2, ↓reduceIte]
        refine ⟨fun h => by simp at h, ?_⟩
        rintro ⟨-, -, -, h⟩
        exact absurd h2 (h b (List.mem_cons_self _ _))
      · simp only [h1, h2, ↓reduceIte, ih]
        constructor
        · rintro ⟨hr, hlt, hnd, hdis⟩
          refine ⟨by simpa using hr, ?_, ?_, ?_⟩
          · intro x hx
            rcases List.mem_cons.mp hx with hx | hx
            · subst hx; omega
            · exact hlt x hx
          · refine List.nodup_cons.mpr ⟨?_, hnd⟩
            intro hmem
            exact hdis b hmem (by simp)
          · intro x hx
            rcases List.mem_cons.mp hx with hx | hx
            · subst hx; exact h2
            · intro hacc
              exact hdis x hx (by simp [hacc])
        · rintro ⟨hr, hlt, hnd, hdis⟩
          obtain ⟨hb, hnd⟩ := List.nodup_cons.mp hnd
          refine ⟨by simpa using hr, fun x hx => hlt x (List.mem_cons_of_mem _ hx), hnd, ?_⟩
          intro x hx hmem
          rcases List.mem_append.mp hmem with hmem | hmem
          · exact hdis x (List.mem_cons_of_mem _ hx) hmem
          · simp only [List.mem_singleton] at hmem
            subst hmem
            exact hb hx

/-- The outer loop of validateInstances succeeds exactly when all indices of the instances are
below the modulus, not repeated and not yet in the map. -/
theorem validateLoop_ok (m : Int) (instances : List ConfigInstance) :
    ∀ (acc r : List Int), validateLoop m instances acc = .ok r ↔
      r = acc ++ allBuckets instances ∧ (∀ b ∈ allBuckets instances, b < m) ∧
        (allBuckets instances).Nodup ∧ ∀ b ∈ allBuckets instances, b ∉ acc := by
  induction instances with
  | nil => intro acc r; simp [validateLoop, allBuckets, eq_comm]
  | cons ins rest ih =>
    intro acc r
    have hall : allBuckets (ins :: rest) = ins.Buckets ++ allBuckets rest := by
      simp [allBuckets]
    unfold validateLoop
    rw [hall]
    rcases hres : validateBuckets m ins.Buckets acc with e | acc1
    · have hno := (validateBuckets_ok m ins.Buckets acc (acc ++ ins.Buckets)).not.mp
        (by rw [hres]; simp)
      simp only []
      refine ⟨fun h => by simp at h, ?_⟩
      rintro ⟨-, hlt, hnd, hdis⟩
      exact absurd ⟨rfl, fun b hb => hlt b (List.mem_append_left _ hb),
        (List.nodup_append.mp hnd).1, fun b hb => hdis b (List.mem_append_left _ hb)⟩ hno
    · obtain ⟨hacc1, hlt1, hnd1, hdis1⟩ := (validateBuckets_ok m ins.Buckets acc acc1).mp hres
      simp only [ih]
      subst hacc1
      constructor
      · rintro ⟨hr, hlt, hnd, hdis⟩
        refine ⟨by simpa using hr, ?_, ?_, ?_⟩
        · intro b hb
          rcases List.mem_append.mp hb with hb | hb
          · exact hlt1 b hb
          · exact hlt b hb
        · refine List.nodup_append.mpr ⟨hnd1, hnd, ?_⟩
          intro b hb1 hb2
          exact hdis b hb2 (List.mem_append_right _ hb1)
        · intro b hb
          rcases List.mem_append.mp hb with hb | hb
          · exact hdis1 b hb
          · intro hacc
            exact hdis b hb (List.mem_append_left _ hacc)
      · rintro ⟨hr, hlt, hnd, hdis⟩
        obtain ⟨-, hnd2, hdj⟩ := List.nodup_append.mp hnd
        refine ⟨by simpa using hr, fun b hb => hlt b (List.mem_append_right _ hb), hnd2, ?_⟩
        intro b hb hmem
        rcases List.mem_append.mp hmem with hmem | hmem
        · exact hdis b (List.mem_append_right _ hb) hmem
        · exact hdj hmem hb

/-- What validateInstances checks: with at least one instance it returns no error exactly when
the modulus is positive, every bucket index is below the modulus, no index is repeated, and the
number of indices is the modulus.  No lower bound on the indices is checked. -/
theorem validateInstances_none_iff (f : Factory) (hne : f.instances ≠ []) :
    f.validateInstances = none ↔
      0 < f.mod ∧ (∀ b ∈ allBuckets f.instances, b < f.mod) ∧
        (allBuckets f.instances).Nodup ∧ ((allBuckets f.instances).length : Int) = f.mod := by
  have hlen : f.instances.length ≠ 0 := fun h => hne (List.length_eq_zero.mp h)
  unfold Factory.validateInstances
  simp only [hlen, ↓reduceIte]
  by_cases hm : f.mod ≤ 0
  · simp only [hm, ↓reduceIte]
    refine ⟨fun h => by simp at h, ?_⟩
    rintro ⟨h, -⟩
    omega
  · simp only [hm, ↓reduceIte]
    rcases hres : validateLoop f.mod f.instances [] with e | buckets
    · have hno := (validateLoop_ok f.mod f.instances [] (allBuckets f.instances)).not.mp
        (by rw [hres]; simp)
      simp only []
      refine ⟨fun h => by simp at h, ?_⟩
      rintro ⟨-, hlt, hnd, -⟩
      exact absurd ⟨by simp, hlt, hnd, by simp⟩ hno
    · obtain ⟨hb, hlt, hnd, -⟩ := (validateLoop_ok f.mod f.instances [] buckets).mp hres
      simp only [List.nil_append] at hb
      subst hb
      simp only []
      by_cases hl : ((allBuckets f.instances).length : Int) = f.mod
      · simp only [hl, ne_eq, not_true_eq_false, ↓reduceIte, true_iff]
        exact ⟨by omega, hlt, hnd, trivial⟩
      · simp only [ne_eq, hl, not_false_eq_true, ↓reduceIte]
        refine ⟨fun h => by simp at h, ?_⟩
        rintro ⟨-, -, -, h⟩
        exact h.elim

/-- A list of integers of `[0, m)` without repetition and of length `m` contains every index of
`[0, m)`. -/
theorem mem_of_nodup_length (l : List Int) (m : Int) (hnn : ∀ b ∈ l, 0 ≤ b)
    (hlt : ∀ b ∈ l, b < m) (hnd : l.Nodup) (hlen : (l.length : Int) = m) :
    ∀ i : Int, 0 ≤ i → i < m → i ∈ l := by
  have hsub : l.toFinset ⊆ Finset.Ico (0 : Int) m := by
    intro x hx
    have hx2 := List.mem_toFinset.mp hx
    exact Finset.mem_Ico.mpr ⟨hnn x hx2, hlt x hx2⟩
  have hcard : (Finset.Ico (0 : Int) m).card ≤ l.toFinset.card := by
    rw [List.toFinset_card_of_nodup hnd, Int.card_Ico]
    omega
  have heq := Finset.eq_of_subset_of_card_le hsub hcard
  intro i h0 h1
  have : i ∈ Finset.Ico (0 : Int) m := Finset.mem_Ico.mpr ⟨h0, h1⟩
  rw [← heq] at this
  exact List.mem_toFinset.mp this

/-- A list of integers of `[0, m)` in which every index of `[0, m)` occurs has at least `m`
elements; without repetition it has exactly `m`. -/
theorem length_of_nodup_cover (l : List Int) (m : Int) (hm : 0 < m) (hnn : ∀ b ∈ l, 0 ≤ b)
    (hlt : ∀ b ∈ l, b < m) (hnd : l.Nodup) (hcov : ∀ i : Int, 0 ≤ i → i < m → i ∈ l) :
    (l.length : Int) = m := by
  have heq : l.toFinset = Finset.Ico (0 : Int) m := by
    ext x
    simp only [List.mem_toFinset, Finset.mem_Ico]
    exact ⟨fun hx => ⟨hnn x hx, hlt x hx⟩, fun hx => hcov x hx.1 hx.2⟩
  have hc := congrArg Finset.card heq
  rw [List.toFinset_card_of_nodup hnd, Int.card_Ico] at hc
  omega

/-- On configurations with at least one instance and without negative bucket index,
validateInstances returns no error exactly when the bucket lists partition the indices below
the modulus. -/
theorem validateInstances_iff_partition_of_nonneg (f : Factory) (hne : f.instances ≠ [])
    (hnn : ∀ b ∈ allBuckets f.instances, 0 ≤ b) :
    f.validateInstances = none ↔ bucketsPartition f.mod f.instances := by
  rw [validateInstances_none_iff f hne]
  unfold bucketsPartition
  constructor
  · rintro ⟨hm, hlt, hnd, hlen⟩
    refine ⟨hm, ?_, fun b hb => ⟨hnn b hb, hlt b hb⟩⟩
    intro i h0 h1
    exact List.count_eq_one_of_mem hnd
      (mem_of_nodup_length (allBuckets f.instances) f.mod hnn hlt hnd hlen i h0 h1)
  · rintro ⟨hm, hcount, hrange⟩
    have hnd : (allBuckets f.instances).Nodup := by
      rw [List.nodup_iff_count_le_one]
      intro a
      by_cases ha : a ∈ allBuckets f.instances
      · rw [hcount a (hrange a ha).1 (hrange a ha).2]
      · rw [List.count_eq_zero_of_not_mem ha]
        exact Nat.zero_le _
    refine ⟨hm, fun b hb => (hrange b hb).2, hnd, ?_⟩
    refine length_of_nodup_cover _ f.mod hm hnn (fun b hb => (hrange b hb).2) hnd ?_
    intro i h0 h1
    have := hcount i h0 h1
    exact List.count_pos_iff.mp (by omega)

/-- What a Conn that does not return an error has done: validation passed, the instance loop ran
to its end from a table holding only the default pair, and its table is the published one. -/
theorem Conn_publishes (env : Env) (f : Factory) (w : World)
    (h : ∀ e, (f.Conn env w).2.2 ≠ .err e) :
    f.validateInstances = none ∧
    ∃ (w1 w2 : World) (conn1 conn2 : dbConn),
      conn1.Instances = [] ∧
      connInstances env f w1 conn1 f.instances = (w2, conn2, none) ∧
      (f.Conn env w).1 = { f with connPtr := some conn2 } := by
  unfold Factory.Conn at h ⊢
  by_cases hu : f.unavailable = true
  · exact absurd (by simp [hu]) (h .notInitialized)
  · rcases hv : f.validateInstances with _ | ev
    · refine ⟨rfl, ?_⟩
      simp only [hu, hv] at h ⊢
      by_cases hd : f.dsn = ""
      · simp only [hd, ne_eq, not_true_eq_false, ↓reduceIte] at h ⊢
        rcases hres : connInstances env f w { Master := none, Slave := none, Instances := [] }
          f.instances with ⟨w2, conn2, _ | e2⟩
        · refine ⟨w, w2, _, conn2, rfl, hres, ?_⟩
          rcases hold : f.connPtr with _ | old
          · simp [hd]
          · simp only []
            rcases hcl : old.Close env w2 with ⟨w3, _ | _ | _⟩ <;> simp [hd]
        · rw [hres] at h
          exact absurd rfl (h e2)
      · simp only [hd, ne_eq, not_false_eq_true, ↓reduceIte] at h ⊢
        rcases hres1 : dbInstance.openDBConn env f w
          (dbConn.dbInstance { Master := none, Slave := none, Instances := [] }) f.dsn f.dsnSlave
          with ⟨w1, db, _ | e1⟩
        · rw [hres1] at h
          simp only at h ⊢
          rcases hres : connInstances env f w1
            { Master := db.Master, Slave := db.Slave, Instances := [] }
            f.instances with ⟨w2, conn2, _ | e2⟩
          · refine ⟨w1, w2, _, conn2, rfl, hres, ?_⟩
            rcases hold : f.connPtr with _ | old
            · simp
            · simp only []
              rcases hcl : old.Close env w2 with ⟨w3, _ | _ | _⟩ <;> simp
          · rw [hres] at h
            exact absurd rfl (h e2)
        · rw [hres1] at h
          exact absurd rfl (h e1)
    · simp only [hu, hv] at h
      exact absurd rfl (h ev)

/-- A table that Conn publishes has a sharded bucket only under a positive modulus. -/
theorem Conn_published_mod_pos (env : Env) (f : Factory) (w : World) (conn : dbConn)
    (h : ∀ e, (f.Conn env w).2.2 ≠ .err e) (hc : (f.Conn env w).1.connPtr = some conn)
    (hne : conn.Instances ≠ []) : 0 < (f.Conn env w).1.mod := by
  obtain ⟨hv, w1, w2, conn1, conn2, h1, hloop, hf⟩ := Conn_publishes env f w h
  rw [hf] at hc ⊢
  simp only [Option.some.injEq] at hc
  subst hc
  have hins : f.instances ≠ [] := by
    intro hnil
    rw [hnil] at hloop
    simp only [connInstances, Prod.mk.injEq, and_true] at hloop
    exact hne (hloop.2 ▸ h1)
  exact ((validateInstances_none_iff f hins).mp hv).1

/-- Looking up after an assignment: the assigned key gives the new value, others are unchanged. -/
theorem mapLookup_mapInsert {α : Type} (m : List (Int × α)) (k : Int) (v : α) (k1 : Int) :
    mapLookup (mapInsert m k v) k1 = if k = k1 then some v else mapLookup m k1 := by
  induction m with
  | nil => simp [mapInsert, mapLookup]
  | cons p rest ih =>
    obtain ⟨k2, v2⟩ := p
    unfold mapInsert
    by_cases h : k2 = k
    · subst h
      by_cases h1 : k2 = k1 <;> simp [mapLookup, h1]
    · simp only [h, ↓reduceIte, mapLookup, ih]
      by_cases h1 : k2 = k1
      · have h2 : ¬ k = k1 := fun h3 => h (h1.trans h3.symm)
        simp [h1, h2]
      · simp [h1]

/-- The keys after an assignment: a new key is added at the end, an old one changes nothing. -/
theorem mapInsert_keys {α : Type} (m : List (Int × α)) (k : Int) (v : α) :
    (mapInsert m k v).map Prod.fst =
      if k ∈ m.map Prod.fst then m.map Prod.fst else m.map Prod.fst ++ [k] := by
  induction m with
  | nil => simp [mapInsert]
  | cons p rest ih =>
    obtain ⟨k2, v2⟩ := p
    unfold mapInsert
    by_cases h : k2 = k
    · subst h
      simp
    · have h2 : ¬ k = k2 := fun h3 => h h3.symm
      simp only [h, ↓reduceIte, List.map_cons, ih, List.mem_cons, h2, false_or]
      split <;> simp

/-- A key is present in the list of keys exactly when its lookup succeeds. -/
theorem mapLookup_isSome_iff {α : Type} (m : List (Int × α)) (k : Int) :
    (∃ v, mapLookup m k = some v) ↔ k ∈ m.map Prod.fst := by
  induction m with
  | nil => simp [mapLookup]
  | cons p rest ih =>
    obtain ⟨k2, v2⟩ := p
    unfold mapLookup
    by_cases h : k2 = k
    · simp [h]
    · have h2 : ¬ k = k2 := fun h3 => h h3.symm
      simp [h, h2, ih]

/-- The lookups after registering one instance under its buckets. -/
theorem mapLookup_registerBuckets (bs : List Int) (db : dbInstance) :
    ∀ (m : List (Int × dbInstance)) (b : Int),
      mapLookup (registerBuckets m bs db) b = if b ∈ bs then some db else mapLookup m b := by
  induction bs with
  | nil => intro m b; simp [registerBuckets]
  | cons b0 rest ih =>
    intro m b
    unfold registerBuckets
    rw [ih, mapLookup_mapInsert]
    by_cases h1 : b ∈ rest
    · simp [h1]
    · by_cases h2 : b0 = b
      · simp [h2]
      · have h3 : ¬ b = b0 := fun h => h2 h.symm
        simp [h1, h2, h3]

/-- The keys after registering one instance under buckets that are new and not repeated. -/
theorem registerBuckets_keys (bs : List Int) (db : dbInstance) :
    ∀ (m : List (Int × dbInstance)), bs.Nodup → (∀ b ∈ bs, b ∉ m.map Prod.fst) →
      (registerBuckets m bs db).map Prod.fst = m.map Prod.fst ++ bs := by
  induction bs with
  | nil => intro m _ _; simp [registerBuckets]
  | cons b0 rest ih =>
    intro m hnd hdis
    obtain ⟨hb0, hnd2⟩ := List.nodup_cons.mp hnd
    have hnew : b0 ∉ m.map Prod.fst := hdis b0 (List.mem_cons_self _ _)
    have hkeys : (mapInsert m b0 db).map Prod.fst = m.map Prod.fst ++ [b0] := by
      rw [mapInsert_keys]; simp only [hnew, ↓reduceIte]
    unfold registerBuckets
    rw [ih (mapInsert m b0 db) hnd2, hkeys]
    · simp
    · intro b hb hmem
      rw [hkeys] at hmem
      rcases List.mem_append.mp hmem with hmem | hmem
      · exact hdis b (List.mem_cons_of_mem _ hb) hmem
      · simp only [List.mem_singleton] at hmem
        subst hmem
        exact hb0 hb

/-- A successful pass of the instance loop of Conn over a non-empty list: the first instance
opened its pair, was registered under its buckets, and the loop went on with the rest. -/
theorem connInstances_cons_ok (env : Env) (f : Factory) (w w2 : World) (conn conn2 : dbConn)
    (ins : ConfigInstance) (rest : List ConfigInstance)
    (h : connInstances env f w conn (ins :: rest) = (w2, conn2, none)) :
    ∃ (w1 : World) (db : dbInstance),
      dbInstance.openDBConn env f w { Master := none, Slave := none } ins.DSN ins.DSNSlave =
        (w1, db, none) ∧
      connInstances env f w1
        { conn with Instances := registerBuckets conn.Instances ins.Buckets db } rest =
        (w2, conn2, none) := by
  unfold connInstances at h
  rcases hres : dbInstance.openDBConn env f w { Master := none, Slave := none } ins.DSN
    ins.DSNSlave with ⟨w1, db, _ | e⟩
  · rw [hres] at h
    exact ⟨w1, db, rfl, h⟩
  · rw [hres] at h
    simp at h

/-- The bucket list of a configuration that starts with one instance. -/
theorem allBuckets_cons (ins : ConfigInstance) (rest : List ConfigInstance) :
    allBuckets (ins :: rest) = ins.Buckets ++ allBuckets rest := by
  simp [allBuckets]

/-- The bucket list of a configuration split around one instance. -/
theorem allBuckets_split (pre post : List ConfigInstance) (ins : ConfigInstance) :
    allBuckets (pre ++ ins :: post) = allBuckets pre ++ (ins.Buckets ++ allBuckets post) := by
  simp [allBuckets]

/-- The instance loop of Conn leaves alone the buckets that no instance names. -/
theorem connInstances_lookup_other (env : Env) (f : Factory) (instances : List ConfigInstance) :
    ∀ (w w2 : World) (conn conn2 : dbConn),
      connInstances env f w conn instances = (w2, conn2, none) →
      ∀ b, b ∉ allBuckets instances → mapLookup conn2.Instances b = mapLookup conn.Instances b := by
  induction instances with
  | nil =>
    intro w w2 conn conn2 h b _
    simp only [connInstances, Prod.mk.injEq, and_true] at h
    rw [← h.2]
  | cons ins rest ih =>
    intro w w2 conn conn2 h b hb
    obtain ⟨w1, db, -, hrest⟩ := connInstances_cons_ok env f w w2 conn conn2 ins rest h
    rw [allBuckets_cons] at hb
    have hb1 : b ∉ ins.Buckets := fun hm => hb (List.mem_append_left _ hm)
    have hb2 : b ∉ allBuckets rest := fun hm => hb (List.mem_append_right _ hm)
    rw [ih w1 w2 _ conn2 hrest b hb2]
    simp only [mapLookup_registerBuckets, hb1, ↓reduceIte]

/-- The keys of the bucket map after the instance loop of Conn, when the bucket indices are new
and not repeated: the old keys followed by all bucket indices of the instances. -/
theorem connInstances_keys (env : Env) (f : Factory) (instances : List ConfigInstance) :
    ∀ (w w2 : World) (conn conn2 : dbConn),
      connInstances env f w conn instances = (w2, conn2, none) →
      (allBuckets instances).Nodup →
      (∀ b ∈ allBuckets instances, b ∉ conn.Instances.map Prod.fst) →
      conn2.Instances.map Prod.fst = conn.Instances.map Prod.fst ++ allBuckets instances := by
  induction instances with
  | nil =>
    intro w w2 conn conn2 h _ _
    simp only [connInstances, Prod.mk.injEq, and_true] at h
    rw [← h.2]
    simp [allBuckets]
  | cons ins rest ih =>
    intro w w2 conn conn2 h hnd hdis
    obtain ⟨w1, db, -, hrest⟩ := connInstances_cons_ok env f w w2 conn conn2 ins rest h
    rw [allBuckets_cons] at hnd hdis ⊢
    obtain ⟨hnd1, hnd2, hdj⟩ := List.nodup_append.mp hnd
    have hkeys := registerBuckets_keys ins.Buckets db conn.Instances hnd1
      (fun b hb => hdis b (List.mem_append_left _ hb))
    rw [ih w1 w2 _ conn2 hrest hnd2]
    · simp only [hkeys, List.append_assoc]
    · intro b hb hmem
      simp only [hkeys] at hmem
      rcases List.mem_append.mp hmem with hmem | hmem
      · exact hdis b (List.mem_append_right _ hb) hmem
      · exact hdj hmem hb

/-- The entry of a bucket after the instance loop of Conn: for an instance of the list, the loop
over the instances before it succeeded, openDBConn then opened its pair, and every bucket of the
instance that no later instance names is mapped to that pair. -/
theorem connInstances_entry (env : Env) (f : Factory) (instances : List ConfigInstance) :
    ∀ (w w2 : World) (conn conn2 : dbConn),
      connInstances env f w conn instances = (w2, conn2, none) →
      ∀ (pre post : List ConfigInstance) (ins : ConfigInstance), instances = pre ++ ins :: post →
        ∃ (w1 w3 : World) (conn1 : dbConn) (db : dbInstance),
          connInstances env f w conn pre = (w1, conn1, none) ∧
          dbInstance.openDBConn env f w1 { Master := none, Slave := none } ins.DSN ins.DSNSlave =
            (w3, db, none) ∧
          ∀ b ∈ ins.Buckets, b ∉ allBuckets post → mapLookup conn2.Instances b = some db := by
  induction instances with
  | nil =>
    intro w w2 conn conn2 _ pre post ins hsplit
    simp at hsplit
  | cons head rest ih =>
    intro w w2 conn conn2 h pre post ins hsplit
    obtain ⟨w1, db, hopen, hrest⟩ := connInstances_cons_ok env f w w2 conn conn2 head rest h
    cases pre with
    | nil =>
      simp only [List.nil_append, List.cons.injEq] at hsplit
      obtain ⟨hhead, hpost⟩ := hsplit
      subst hhead
      subst hpost
      refine ⟨w, w1, conn, db, by simp [connInstances], hopen, ?_⟩
      intro b hb hnot
      rw [connInstances_lookup_other env f rest w1 w2 _ conn2 hrest b hnot]
      simp only [mapLookup_registerBuckets, hb, ↓reduceIte]
    | cons p pre1 =>
      simp only [List.cons_append, List.cons.injEq] at hsplit
      obtain ⟨hhead, hrest2⟩ := hsplit
      subst hhead
      obtain ⟨w4, w5, conn1, db1, hpre, hopen1, hlook⟩ :=
        ih w1 w2 _ conn2 hrest pre1 post ins hrest2
      refine ⟨w4, w5, conn1, db1, ?_, hopen1, hlook⟩
      unfold connInstances
      rw [hopen]
      exact hpre

/-- The state in which Conn enters its instance loop: without default DSN the world of the call
and the empty table, otherwise the world and the pair that openDBConn produced for the default
endpoint. -/
theorem Conn_publishes_from (env : Env) (f : Factory) (w : World)
    (h : ∀ e, (f.Conn env w).2.2 ≠ .err e) :
    f.unavailable = false ∧
    ∃ (w1 w2 : World) (conn1 conn2 : dbConn),
      ((f.dsn = "" ∧ w1 = w ∧ conn1 = { Master := none, Slave := none, Instances := [] }) ∨
       (f.dsn ≠ "" ∧ ∃ db0 : dbInstance,
          dbInstance.openDBConn env f w { Master := none, Slave := none } f.dsn f.dsnSlave =
            (w1, db0, none) ∧
          conn1 = { Master := db0.Master, Slave := db0.Slave, Instances := [] })) ∧
      connInstances env f w1 conn1 f.instances = (w2, conn2, none) ∧
      (f.Conn env w).1 = { f with connPtr := some conn2 } := by
  unfold Factory.Conn at h ⊢
  by_cases hu : f.unavailable = true
  · exact absurd (by simp [hu]) (h .notInitialized)
  · refine ⟨by simpa using hu, ?_⟩
    rcases hv : f.validateInstances with _ | ev
    · simp only [hu, hv] at h ⊢
      by_cases hd : f.dsn = ""
      · simp only [hd, ne_eq, not_true_eq_false, ↓reduceIte] at h ⊢
        rcases hres : connInstances env f w { Master := none, Slave := none, Instances := [] }
          f.instances with ⟨w2, conn2, _ | e2⟩
        · refine ⟨w, w2, _, conn2, Or.inl ⟨trivial, rfl, rfl⟩, hres, ?_⟩
          rcases hold : f.connPtr with _ | old
          · simp [hd]
          · simp only []
            rcases hcl : old.Close env w2 with ⟨w3, _ | _ | _⟩ <;> simp [hd]
        · rw [hres] at h
          exact absurd rfl (h e2)
      · simp only [hd, ne_eq, not_false_eq_true, ↓reduceIte] at h ⊢
        rcases hres1 : dbInstance.openDBConn env f w
          (dbConn.dbInstance { Master := none, Slave := none, Instances := [] }) f.dsn f.dsnSlave
          with ⟨w1, db, _ | e1⟩
        · rw [hres1] at h
          simp only at h ⊢
          rcases hres : connInstances env f w1
            { Master := db.Master, Slave := db.Slave, Instances := [] }
            f.instances with ⟨w2, conn2, _ | e2⟩
          · refine ⟨w1, w2, _, conn2, Or.inr ⟨trivial, db, hres1, rfl⟩, hres, ?_⟩
            rcases hold : f.connPtr with _ | old
            · simp
            · simp only []
              rcases hcl : old.Close env w2 with ⟨w3, _ | _ | _⟩ <;> simp
          · rw [hres] at h
            exact absurd rfl (h e2)
        · rw [hres1] at h
          exact absurd rfl (h e1)
    · simp only [hu, hv] at h
      exact absurd rfl (h ev)

/-- A bucket of an instance of a configuration is one of its bucket indices. -/
theorem mem_allBuckets (instances : List ConfigInstance) (ins : ConfigInstance) (b : Int)
    (hins : ins ∈ instances) (hb : b ∈ ins.Buckets) : b ∈ allBuckets instances := by
  simp only [allBuckets, List.mem_flatten, List.mem_map]
  exact ⟨ins.Buckets, ⟨ins, hins, rfl⟩, hb⟩

/-- The routes of New on a published table.  Without selector and with a default master it
returns the default pair; without selector, without default and with a sharded bucket it fails
with the missing-index error; with a selector and no sharded bucket it returns the default pair
if there is one and fails with the no-default error otherwise; with a selector and a sharded
bucket it returns the instance found under the Go remainder of the selector, when there is one,
whether or not a default pair exists. -/
theorem New_decision_rows (f : Factory) (conn : dbConn) (ctx : Ctx)
    (hu : f.unavailable = false) (hc : f.connPtr = some conn) :
    (ctx.index = none → conn.Master ≠ none →
        f.New ctx = .ok (newMySQL ctx conn.Master conn.Slave)) ∧
    (ctx.index = none → conn.Master = none → conn.Instances ≠ [] →
        f.New ctx = .error .missingIndex) ∧
    (∀ s : Int, ctx.index = some s → conn.Instances = [] →
        (conn.Master ≠ none → f.New ctx = .ok (newMySQL ctx conn.Master conn.Slave)) ∧
        (conn.Master = none → f.New ctx = .error .noDefaultMaster)) ∧
    (∀ (s : Int) (ins : dbInstance), ctx.index = some s → conn.Instances ≠ [] → f.mod ≠ 0 →
        mapLookup conn.Instances (s.tmod f.mod) = some ins →
        f.New ctx = .ok (newMySQL ctx ins.Master ins.Slave)) := by
  refine ⟨?_, ?_, ?_, ?_⟩
  · intro hi hm
    simp [Factory.New, Factory.conn, hu, hc, indexFromContext, hi, hm]
  · intro hi hm hne
    have hlen : 0 < conn.Instances.length := List.length_pos.mpr hne
    simp [Factory.New, Factory.conn, hu, hc, indexFromContext, hi, hm, hlen]
  · intro s hi he
    refine ⟨?_, ?_⟩
    · intro hm
      simp [Factory.New, Factory.conn, hu, hc, indexFromContext, hi, hm, he]
    · intro hm
      simp [Factory.New, Factory.conn, hu, hc, indexFromContext, hi, hm, he]
  · intro s ins hi hne hmod hl
    have hlen : conn.Instances.length ≠ 0 := by
      intro h; exact hne (List.length_eq_zero.mp h)
    simp [Factory.New, Factory.conn, hu, hc, indexFromContext, hi, hlen, hmod, hl]

/-- One connected factory for each route of New. -/
theorem New_decision_rows_examples :
    (connectedFactory cfgDefaultOnly).New Ctx.background =
        .ok (newMySQL Ctx.background (some 0) (some 0)) ∧
    factoryScenarioA.New Ctx.background = .error .missingIndex ∧
    (connectedFactory cfgDefaultOnly).New (WithIndex Ctx.background 5) =
        .ok (newMySQL (WithIndex Ctx.background 5) (some 0) (some 0)) ∧
    (connectedFactory cfgEmpty).New (WithIndex Ctx.background 5) = .error .noDefaultMaster ∧
    (connectedFactory cfgDefaultAndShards).New (WithIndex Ctx.background 6) =
        .ok (newMySQL (WithIndex Ctx.background 6) (some 2) (some 2)) :=
  ⟨(New_decision_rows (connectedFactory cfgDefaultOnly)
      { Master := some 0, Slave := some 0, Instances := [] } Ctx.background rfl rfl).1
      rfl (by decide),
   (New_decision_rows factoryScenarioA
      { Master := none, Slave := none,
        Instances := [(0, ⟨some 0, some 0⟩), (1, ⟨some 0, some 0⟩), (2, ⟨some 1, some 1⟩),
          (3, ⟨some 1, some 1⟩)] } Ctx.background rfl rfl).2.1 rfl rfl (by decide),
   ((New_decision_rows (connectedFactory cfgDefaultOnly)
      { Master := some 0, Slave := some 0, Instances := [] } (WithIndex Ctx.background 5)
      rfl rfl).2.2.1 5 rfl rfl).1 (by decide),
   ((New_decision_rows (connectedFactory cfgEmpty)
      { Master := none, Slave := none, Instances := [] } (WithIndex Ctx.background 5)
      rfl rfl).2.2.1 5 rfl rfl).2 rfl,
   (New_decision_rows (connectedFactory cfgDefaultAndShards)
      { Master := some 0, Slave := some 0,
        Instances := [(0, ⟨some 1, some 1⟩), (1, ⟨some 1, some 1⟩), (2, ⟨some 2, some 2⟩),
          (3, ⟨some 2, some 2⟩)] } (WithIndex Ctx.background 6) rfl rfl).2.2.2
      6 ⟨some 2, some 2⟩ rfl (by decide) (by decide) rfl⟩

/-! ### Claims -/

/-- Claim C1, the code at the failing input: with modulus 2 and one instance whose buckets are
-1 and 0, validateInstances returns no error, although the bucket lists do not partition the
indices 0 and 1 (index -1 lies outside, index 1 is missing). -/
theorem validateInstances_accepts_negative_bucket :
    (NewFactory cfgNegativeBucket).validateInstances = none ∧
      ¬ bucketsPartition (NewFactory cfgNegativeBucket).mod
        (NewFactory cfgNegativeBucket).instances := by
  refine ⟨by decide, ?_⟩
  rintro ⟨-, -, h⟩
  have := h (-1) (by decide)
  omega

/-- Claim C2, the code at the failing input: in scenario A (modulus 4, buckets 0 to 3 all
registered) the selector -1 has normalised bucket 3, which has an instance, but New looks up the
key -1, finds nothing and dereferences nil. -/
theorem New_negative_selector_misses :
    (∃ conn, factoryScenarioA.connPtr = some conn ∧
      ∃ ins, mapLookup conn.Instances (specBucket (-1) factoryScenarioA.mod) = some ins) ∧
    specBucket (-1) factoryScenarioA.mod = 3 ∧
    (-1 : Int).tmod factoryScenarioA.mod = -1 ∧
    factoryScenarioA.New (WithIndex Ctx.background (-1)) = .error .nilDeref := by
  refine ⟨⟨_, rfl, _, rfl⟩, by decide, by decide, rfl⟩

/-- Claim C3, the code at the failing inputs.  On the table published for a default endpoint
together with the shards of scenario A (modulus 4, buckets 0 to 3 all registered), a context with
selector -1 falls in the last row of the decision table: a selector is present and the table has
sharded buckets.  The bucket of that selector is 3, registered for the instance on pools 2 and 2,
and the default pair is on pools 0 and 0; New returns neither, it looks up the key -1, finds
nothing and dereferences nil.  On the table published for modulus 2 with buckets -1 and 0,
selector 1 has no instance either and New dereferences nil as well. -/
theorem New_sharded_row_panics :
    (∃ conn, (connectedFactory cfgDefaultAndShards).connPtr = some conn ∧
      conn.Master = some 0 ∧ conn.Slave = some 0 ∧ conn.Instances.length = 4 ∧
      mapLookup conn.Instances (specBucket (-1) (connectedFactory cfgDefaultAndShards).mod) =
        some { Master := some 2, Slave := some 2 }) ∧
    indexFromContext (WithIndex Ctx.background (-1)) = (-1, true) ∧
    specBucket (-1) (connectedFactory cfgDefaultAndShards).mod = 3 ∧
    (connectedFactory cfgDefaultAndShards).New (WithIndex Ctx.background (-1)) =
      .error .nilDeref ∧
    (∃ conn, (connectedFactory cfgNegativeBucket).connPtr = some conn ∧
      conn.Instances.length = 2) ∧
    (connectedFactory cfgNegativeBucket).New (WithIndex Ctx.background 1) = .error .nilDeref := by
  refine ⟨⟨_, rfl, by decide, by decide, by decide, by decide⟩, by decide, by decide, rfl,
    ⟨_, rfl, by decide⟩, rfl⟩

/-- Claim C4: when a stage of Conn fails (the factory is unavailable, bucket validation fails,
or a DSN it tries does not parse, does not open or does not answer the ping), Conn returns an
error; and whenever Conn returns an error, the published table is the one published before the
call, so New afterwards behaves as before. -/
theorem Conn_failure_keeps_table (env : Env) (f : Factory) (w : World) :
    ((f.unavailable = true ∨ f.validateInstances ≠ none ∨ ∃ d ∈ usedDSNs f, dsnBroken env d) →
      ∃ e, (f.Conn env w).2.2 = .err e) ∧
    (∀ e, (f.Conn env w).2.2 = .err e →
      (f.Conn env w).1.connPtr = f.connPtr ∧ ∀ ctx, (f.Conn env w).1.New ctx = f.New ctx) := by
  refine ⟨Conn_fails_of_stage env f w, ?_⟩
  intro e he
  have h := (Conn_err_frame env f w e he).1
  exact ⟨by rw [h], fun ctx => by rw [h]⟩

/-- Witness of C4: the DSN `invalid` of TestMySQLConnFailed makes Conn fail and leaves the
factory without table; a second Conn of scenario A against a server that answers no ping fails
and keeps the table of the first Conn. -/
theorem Conn_failure_keeps_table_witness :
    ((∃ e, ((NewFactory cfgInvalid).Conn liveEnv World.init).2.2 = .err e) ∧
      ((NewFactory cfgInvalid).Conn liveEnv World.init).1.connPtr = none) ∧
    ((∃ e, (factoryScenarioA.Conn deadEnv worldScenarioA).2.2 = .err e) ∧
      (factoryScenarioA.Conn deadEnv worldScenarioA).1.connPtr = factoryScenarioA.connPtr) :=
  ⟨⟨(Conn_failure_keeps_table liveEnv (NewFactory cfgInvalid) World.init).1
      (Or.inr (Or.inr ⟨"invalid", by decide, Or.inl (by decide)⟩)),
    ((Conn_failure_keeps_table liveEnv (NewFactory cfgInvalid) World.init).2
      (.invalidDSN "invalid") (by decide)).1⟩,
   ⟨(Conn_failure_keeps_table deadEnv factoryScenarioA worldScenarioA).1
      (Or.inr (Or.inr ⟨"u:p@tcp(x:3306)/db", by decide, Or.inr (Or.inr (fun _ => rfl))⟩)),
    ((Conn_failure_keeps_table deadEnv factoryScenarioA worldScenarioA).2
      (.pingFailed "u:p@tcp(x:3306)/db") (by decide)).1⟩⟩

/-- Claim C5 as stated fails: with a default primary that opens and a replica that does not
answer the ping, Conn returns the ping error, two pools were opened during the call and neither
has received a Close call. -/
theorem Conn_failure_leaks_pools :
    ((NewFactory cfgReplicaDown).Conn liveEnv World.init).2.2 =
        .err (.pingFailed "u:p@tcp(down:3306)/db") ∧
    ((NewFactory cfgReplicaDown).Conn liveEnv World.init).2.1.opened =
        [(0, "u:p@tcp(d:3306)/db"), (1, "u:p@tcp(down:3306)/db")] ∧
    ((NewFactory cfgReplicaDown).Conn liveEnv World.init).2.1.closeLog = [] ∧
    ¬ World.init.openedAreClosed ((NewFactory cfgReplicaDown).Conn liveEnv World.init).2.1 := by
  refine ⟨by decide, by decide, by decide, ?_⟩
  intro h
  have h0 := h (0, "u:p@tcp(d:3306)/db") (by decide) (by decide)
  revert h0
  decide

/-- Claim C5 amended: when Conn returns an error it has made no Close call at all; the pools
it opened during the call are fresh and, in a world whose Close calls only name pools that
already exist, none of them has been closed when Conn returns. -/
theorem Conn_failure_closes_nothing (env : Env) (f : Factory) (w : World) (e : Error)
    (h : (f.Conn env w).2.2 = .err e) :
    (f.Conn env w).2.1.closeLog = w.closeLog ∧
    ∃ added : List (PoolId × String), (f.Conn env w).2.1.opened = w.opened ++ added ∧
      (∀ q ∈ added, w.nextPool ≤ q.1) ∧
      ((∀ p ∈ w.closeLog, p < w.nextPool) → ∀ q ∈ added, q.1 ∉ (f.Conn env w).2.1.closeLog) := by
  obtain ⟨hc, -, added, ho, ha⟩ := (Conn_err_frame env f w e h).2
  refine ⟨hc, added, ho, fun q hq => (ha q hq).1, ?_⟩
  intro hw q hq hmem
  rw [hc] at hmem
  exact absurd (hw q.1 hmem) (Nat.not_lt.mpr (ha q hq).1)

/-- Witness of C5 amended: the failed Conn with the unreachable replica. -/
theorem Conn_failure_closes_nothing_witness :
    ((NewFactory cfgReplicaDown).Conn liveEnv World.init).2.2 =
        .err (.pingFailed "u:p@tcp(down:3306)/db") ∧
    ((NewFactory cfgReplicaDown).Conn liveEnv World.init).2.1.closeLog = World.init.closeLog :=
  ⟨by decide,
   (Conn_failure_closes_nothing liveEnv (NewFactory cfgReplicaDown) World.init
      (.pingFailed "u:p@tcp(down:3306)/db") (by decide)).1⟩

/-- Claim C6, the code at the failing inputs.  With a default endpoint and one instance
registered under buckets 0 to 3, dbConn.Close succeeds and calls Close once on the default pool
and four times on the pool of the instance.  With the same instance and no default endpoint (the
cluster configuration of the tests) dbConn.Close dereferences the nil default master and panics
before any Close call, so the pool of the instance is skipped. -/
theorem Close_repeats_or_skips_pools :
    (connectedWorld cfgClusterWithDefault).opened =
        [(0, "u:p@tcp(d:3306)/db"), (1, "u:p@tcp(x:3306)/db")] ∧
    (∃ conn, (connectedFactory cfgClusterWithDefault).connPtr = some conn ∧
      (conn.Close liveEnv (connectedWorld cfgClusterWithDefault)).2 = .ok ∧
      (conn.Close liveEnv (connectedWorld cfgClusterWithDefault)).1.closeLog = [0, 1, 1, 1, 1]) ∧
    (connectedWorld cfgClusterTest).opened = [(0, "u:p@tcp(x:3306)/db")] ∧
    (∃ conn, (connectedFactory cfgClusterTest).connPtr = some conn ∧
      (conn.Close liveEnv (connectedWorld cfgClusterTest)).2 = .panic .nilDeref ∧
      (conn.Close liveEnv (connectedWorld cfgClusterTest)).1.closeLog = []) := by
  refine ⟨by decide, ⟨_, rfl, by decide, by decide⟩, by decide, ⟨_, rfl, by decide, by decide⟩⟩

/-- Claim C7: a handle returned by New has its forced-primary flag unset; on it Exec and
BeginTx select the primary pool and Query and QueryRow select the replica pool. -/
theorem New_handle_read_write_split (f : Factory) (ctx : Ctx) (h : MySQL)
    (hnew : f.New ctx = .ok h) (env : Env) (query : String) :
    h.useMaster = false ∧ h.db true = h.master ∧ h.db false = h.slave ∧
    (h.ctx.err = none →
      (h.Exec env query).calls = h.master.toList.map (fun p => (p, PoolCall.ExecContext)) ∧
      (h.BeginTx env).calls = h.master.toList.map (fun p => (p, PoolCall.BeginTx)) ∧
      (h.Query env query).calls = h.slave.toList.map (fun p => (p, PoolCall.QueryContext)) ∧
      (h.QueryRow env query).calls =
        h.slave.toList.map (fun p => (p, PoolCall.QueryRowContext))) := by
  have hflag := New_useMaster_false f ctx h hnew
  refine ⟨hflag, by simp [MySQL.db], by simp [MySQL.db, hflag], ?_⟩
  intro hlive
  refine ⟨?_, ?_, ?_, ?_⟩
  · simp [MySQL.Exec, hlive, callPool_calls, MySQL.db]
  · simp [MySQL.BeginTx, hlive, callPool_calls, MySQL.db]
  · simp [MySQL.Query, hlive, callPool_calls, MySQL.db, hflag]
  · simp only [MySQL.QueryRow, hlive, MySQL.db, hflag]
    cases h.slave <;> simp

/-- Witness of C7: the handle that New returns for selector 6 on a connected factory with a
default pair and the shards of scenario A. -/
theorem New_handle_read_write_split_witness :
    (newMySQL (WithIndex Ctx.background 6) (some 2) (some 2)).useMaster = false ∧
    ((newMySQL (WithIndex Ctx.background 6) (some 2) (some 2)).Exec liveEnv "UPDATE t").calls =
      [(2, PoolCall.ExecContext)] :=
  ⟨(New_handle_read_write_split (connectedFactory cfgDefaultAndShards)
      (WithIndex Ctx.background 6) _ rfl liveEnv "UPDATE t").1,
   ((New_handle_read_write_split (connectedFactory cfgDefaultAndShards)
      (WithIndex Ctx.background 6) _ rfl liveEnv "UPDATE t").2.2.2 rfl).1⟩

/-- Claim C8: UseMaster stores at a fresh address a copy of the receiver with the same context,
primary and replica and the forced-primary flag set; on the copy every selection is the primary
pool and Exec, BeginTx, Query, QueryRow, Ping and Stats call the primary; the receiver and every
other handle on the heap are unchanged. -/
theorem UseMaster_copy_forces_primary (heap : List MySQL) (p : Nat) (h : MySQL)
    (hp : heap[p]? = some h) (env : Env) (query : String) :
    ∃ (heap1 : List MySQL) (q : Nat) (cp : MySQL),
      MySQL.UseMaster heap p = some (heap1, q) ∧ heap1[q]? = some cp ∧ q ≠ p ∧
      cp.ctx = h.ctx ∧ cp.master = h.master ∧ cp.slave = h.slave ∧ cp.useMaster = true ∧
      (∀ b, cp.db b = h.master) ∧
      (cp.Stats).calls = h.master.toList.map (fun m => (m, PoolCall.Stats)) ∧
      (h.ctx.err = none →
        (cp.Exec env query).calls = h.master.toList.map (fun m => (m, PoolCall.ExecContext)) ∧
        (cp.BeginTx env).calls = h.master.toList.map (fun m => (m, PoolCall.BeginTx)) ∧
        (cp.Query env query).calls = h.master.toList.map (fun m => (m, PoolCall.QueryContext)) ∧
        (cp.QueryRow env query).calls =
          h.master.toList.map (fun m => (m, PoolCall.QueryRowContext)) ∧
        (cp.Ping env).calls = h.master.toList.map (fun m => (m, PoolCall.PingContext))) ∧
      heap1[p]? = some h ∧ (∀ i, i < heap.length → heap1[i]? = heap[i]?) := by
  have hlt : p < heap.length := by
    rcases Nat.lt_or_ge p heap.length with hlt | hge
    · exact hlt
    · rw [List.getElem?_eq_none hge] at hp
      exact absurd hp (by simp)
  have hkeep : ∀ i, i < heap.length →
      (heap ++ [{ h with useMaster := true }])[i]? = heap[i]? := by
    intro i hi
    exact List.getElem?_append_left hi
  refine ⟨heap ++ [{ h with useMaster := true }], heap.length, { h with useMaster := true },
    by simp [MySQL.UseMaster, hp], by simp, Nat.ne_of_gt hlt, rfl, rfl, rfl, rfl,
    by intro b; simp [MySQL.db], ?_, ?_, ?_, hkeep⟩
  · simp only [MySQL.Stats, MySQL.db]
    cases h.master <;> simp
  · intro hlive
    refine ⟨?_, ?_, ?_, ?_, ?_⟩
    · simp [MySQL.Exec, hlive, callPool_calls, MySQL.db]
    · simp [MySQL.BeginTx, hlive, callPool_calls, MySQL.db]
    · simp [MySQL.Query, hlive, callPool_calls, MySQL.db]
    · simp only [MySQL.QueryRow, hlive, MySQL.db]
      cases h.master <;> simp
    · simp [MySQL.Ping, hlive, callPool_calls, MySQL.db]
  · rw [hkeep p hlt, hp]

/-- Witness of C8: UseMaster on the only handle of a heap. -/
theorem UseMaster_copy_forces_primary_witness :
    ∃ (heap1 : List MySQL) (q : Nat) (cp : MySQL),
      MySQL.UseMaster [sampleHandle] 0 = some (heap1, q) ∧ heap1[q]? = some cp ∧
      cp.useMaster = true ∧ cp.db false = some 7 ∧ heap1[0]? = some sampleHandle := by
  obtain ⟨heap1, q, cp, h1, h2, -, -, -, -, h3, h4, -, -, h5, -⟩ :=
    UseMaster_copy_forces_primary [sampleHandle] 0 sampleHandle rfl liveEnv "SELECT 1"
  exact ⟨heap1, q, cp, h1, h2, h3, h4 false, h5⟩

/-- Claim C9: with an empty replica DSN a successful openDBConn opens exactly one pool and
makes it both primary and replica of the pair, so a handle bound to the pair selects that pool
for writes, for reads and for forced-primary reads. -/
theorem openDBConn_empty_replica_shares_pool (env : Env) (f : Factory) (w w1 : World)
    (db db1 : dbInstance) (dsn : String)
    (hopen : db.openDBConn env f w dsn "" = (w1, db1, none)) :
    db1.Slave = db1.Master ∧
    (∃ p, db1.Master = some p ∧ w1.opened = w.opened ++ [(p, dsn)] ∧
      ∀ (mysql : MySQL) (env2 : Env) (query : String),
        mysql.master = db1.Master → mysql.slave = db1.Slave →
        (∀ b, mysql.db b = some p) ∧
        (mysql.ctx.err = none →
          (mysql.Exec env2 query).calls = [(p, PoolCall.ExecContext)] ∧
          (mysql.BeginTx env2).calls = [(p, PoolCall.BeginTx)] ∧
          (mysql.Query env2 query).calls = [(p, PoolCall.QueryContext)] ∧
          (mysql.QueryRow env2 query).calls = [(p, PoolCall.QueryRowContext)] ∧
          (({ mysql with useMaster := true } : MySQL).Query env2 query).calls =
            [(p, PoolCall.QueryContext)])) := by
  unfold dbInstance.openDBConn at hopen
  rcases hres : f.openDB env w dsn with ⟨w2, master, _ | e⟩
  · rw [hres] at hopen
    simp only [↓reduceIte, Prod.mk.injEq, and_true] at hopen
    obtain ⟨hw, hdb⟩ := hopen
    subst hw
    subst hdb
    obtain ⟨p, hm, ho⟩ := openDB_ok_opens env f w dsn w2 master hres
    subst hm
    refine ⟨rfl, p, rfl, ho, ?_⟩
    intro mysql env2 query hmaster hslave
    have hdbsel : ∀ b, mysql.db b = some p := by
      intro b
      simp only [MySQL.db]
      split
      · exact hmaster
      · exact hslave
    refine ⟨hdbsel, ?_⟩
    intro hlive
    refine ⟨?_, ?_, ?_, ?_, ?_⟩
    · simp [MySQL.Exec, hlive, callPool_calls, hdbsel]
    · simp [MySQL.BeginTx, hlive, callPool_calls, hdbsel]
    · simp [MySQL.Query, hlive, callPool_calls, hdbsel]
    · simp [MySQL.QueryRow, hlive, hdbsel]
    · simp [MySQL.Query, hlive, callPool_calls, MySQL.db, hmaster]
  · rw [hres] at hopen
    simp at hopen

/-- Witness of C9: the default endpoint without replica on the live server. -/
theorem openDBConn_empty_replica_shares_pool_witness :
    dbInstance.openDBConn liveEnv (NewFactory cfgDefaultOnly) World.init
        { Master := none, Slave := none } "u:p@tcp(d:3306)/db" "" =
      ({ nextPool := 1, opened := [(0, "u:p@tcp(d:3306)/db")], closeLog := [] },
        { Master := some 0, Slave := some 0 }, none) ∧
    ({ Master := some 0, Slave := some 0 } : dbInstance).Slave =
      ({ Master := some 0, Slave := some 0 } : dbInstance).Master :=
  ⟨by decide,
   (openDBConn_empty_replica_shares_pool liveEnv (NewFactory cfgDefaultOnly) World.init
      { nextPool := 1, opened := [(0, "u:p@tcp(d:3306)/db")], closeLog := [] }
      { Master := none, Slave := none } { Master := some 0, Slave := some 0 }
      "u:p@tcp(d:3306)/db" (by decide)).1⟩

/-- Claim C10: on a handle whose context reports an error, Exec, Query, QueryRow and BeginTx
each return that error with a nil result and issue no call on any pool. -/
theorem cancelled_context_returns_early (env : Env) (h : MySQL) (e : Error) (query : String)
    (he : h.ctx.err = some e) :
    h.Exec env query = { result := none, err := some e, calls := [], panicked := false } ∧
    h.Query env query = { result := none, err := some e, calls := [], panicked := false } ∧
    h.QueryRow env query = { result := none, err := some e, calls := [], panicked := false } ∧
    h.BeginTx env = { result := none, err := some e, calls := [], panicked := false } := by
  refine ⟨?_, ?_, ?_, ?_⟩
  · simp [MySQL.Exec, he, ctxFailed]
  · simp [MySQL.Query, he, ctxFailed]
  · simp [MySQL.QueryRow, he, ctxFailed]
  · simp [MySQL.BeginTx, he, ctxFailed]

/-- Witness of C10: a handle on pools 7 and 8 whose context is cancelled. -/
theorem cancelled_context_returns_early_witness :
    cancelledHandle.Exec liveEnv "UPDATE t" =
      { result := none, err := some (.ctxErr 0), calls := [], panicked := false } :=
  (cancelled_context_returns_early liveEnv cancelledHandle (.ctxErr 0) "UPDATE t" rfl).1

/-- Claim C11: on a factory without published table New returns no handle: it panics with the
not-initialised error when the factory is unavailable and with the not-connected error
otherwise, whatever the context.  A new factory has no table, a Conn that returns an error
leaves a factory without table without one, and Close leaves an available factory without
table. -/
theorem New_without_table_fails (f : Factory) (ctx : Ctx) :
    (f.connPtr = none →
      (f.unavailable = true → f.New ctx = .error .notInitialized) ∧
      (f.unavailable = false → f.New ctx = .error .notConnected) ∧
      ∀ h, f.New ctx ≠ .ok h) ∧
    (∀ config, (NewFactory config).New ctx = .error .notConnected) ∧
    (∀ env w e, f.connPtr = none → (f.Conn env w).2.2 = .err e →
      (f.Conn env w).1.connPtr = none ∧ ∀ h, (f.Conn env w).1.New ctx ≠ .ok h) ∧
    (∀ env w, f.unavailable = false →
      (f.Close env w).1.connPtr = none ∧ (f.Close env w).1.New ctx = .error .notConnected) := by
  have hnone : ∀ g : Factory, g.connPtr = none →
      (g.unavailable = true → g.New ctx = .error .notInitialized) ∧
      (g.unavailable = false → g.New ctx = .error .notConnected) ∧
      ∀ h, g.New ctx ≠ .ok h := by
    intro g hg
    have h1 : g.unavailable = true → g.New ctx = .error .notInitialized := by
      intro hu; simp [Factory.New, hu]
    have h2 : g.unavailable = false → g.New ctx = .error .notConnected := by
      intro hu; simp [Factory.New, Factory.conn, hu, hg]
    refine ⟨h1, h2, ?_⟩
    intro h hok
    cases hu : g.unavailable with
    | true => rw [h1 hu] at hok; cases hok
    | false => rw [h2 hu] at hok; cases hok
  refine ⟨hnone f, ?_, ?_, ?_⟩
  · intro config
    exact (hnone (NewFactory config) rfl).2.1 rfl
  · intro env w e hc he
    have hf := (Conn_err_frame env f w e he).1
    rw [hf]
    exact ⟨hc, (hnone f hc).2.2⟩
  · intro env w hu
    have hclose : (f.Close env w).1 = { f with connPtr := none } := by
      unfold Factory.Close
      simp only [hu, Bool.false_eq_true, ↓reduceIte]
      cases f.connPtr <;> rfl
    rw [hclose]
    exact ⟨rfl, (hnone { f with connPtr := none } rfl).2.1 hu⟩

/-- Witness of C11: a new factory, a factory after a failed Conn and a factory after Close, each
asked for a handle with and without selector. -/
theorem New_without_table_fails_witness :
    (NewFactory cfgScenarioA).New Ctx.background = .error .notConnected ∧
    (NewFactory cfgScenarioA).New (WithIndex Ctx.background 6) = .error .notConnected ∧
    ((NewFactory cfgInvalid).Conn liveEnv World.init).1.connPtr = none ∧
    (factoryScenarioA.Close liveEnv worldScenarioA).1.New (WithIndex Ctx.background 6) =
      .error .notConnected :=
  ⟨((New_without_table_fails (NewFactory cfgScenarioA) Ctx.background).1 rfl).2.1 rfl,
   (New_without_table_fails (NewFactory cfgScenarioA) (WithIndex Ctx.background 6)).2.1
     cfgScenarioA,
   ((New_without_table_fails (NewFactory cfgInvalid) Ctx.background).2.2.1 liveEnv World.init
     (.invalidDSN "invalid") rfl (by decide)).1,
   ((New_without_table_fails factoryScenarioA (WithIndex Ctx.background 6)).2.2.2 liveEnv
     worldScenarioA (by decide)).2⟩

/-- Claim C12: for a configuration with at least one instance that validateInstances accepts and
whose bucket indices are not negative, the table that a Conn without error publishes has as
keys of its bucket map exactly the indices from 0 to mod-1, each once; for every selector
that is not negative New finds the instance under the key `s % mod` and returns a handle on it;
and the entry of a bucket is the pair that openDBConn opened, after the instances before it, for
the one instance whose bucket list holds the bucket. -/
theorem Conn_bucket_map_covers (env : Env) (f : Factory) (w : World)
    (hne : f.instances ≠ []) (hv : f.validateInstances = none)
    (hnn : ∀ b ∈ allBuckets f.instances, 0 ≤ b)
    (hok : ∀ e, (f.Conn env w).2.2 ≠ .err e) :
    ∃ conn : dbConn, (f.Conn env w).1.connPtr = some conn ∧
      (conn.Instances.map Prod.fst).Nodup ∧
      (conn.Instances.length : Int) = f.mod ∧
      (∀ k, k ∈ conn.Instances.map Prod.fst ↔ 0 ≤ k ∧ k < f.mod) ∧
      (∀ (s : Int) (ctx : Ctx), 0 ≤ s → ctx.index = some s →
        ∃ ins, mapLookup conn.Instances (s.tmod f.mod) = some ins ∧
          (f.Conn env w).1.New ctx = .ok (newMySQL ctx ins.Master ins.Slave)) ∧
      ∃ (w0 : World) (conn0 : dbConn),
        ((f.dsn = "" ∧ w0 = w ∧ conn0 = { Master := none, Slave := none, Instances := [] }) ∨
         (f.dsn ≠ "" ∧ ∃ db0 : dbInstance,
            dbInstance.openDBConn env f w { Master := none, Slave := none } f.dsn f.dsnSlave =
              (w0, db0, none) ∧
            conn0 = { Master := db0.Master, Slave := db0.Slave, Instances := [] })) ∧
        ∀ (pre post : List ConfigInstance) (ins : ConfigInstance),
          f.instances = pre ++ ins :: post →
          ∃ (w1 w3 : World) (conn1 : dbConn) (db : dbInstance),
            connInstances env f w0 conn0 pre = (w1, conn1, none) ∧
            dbInstance.openDBConn env f w1 { Master := none, Slave := none } ins.DSN
              ins.DSNSlave = (w3, db, none) ∧
            ∀ b ∈ ins.Buckets, mapLookup conn.Instances b = some db ∧
              ∀ other ∈ pre ++ post, b ∉ other.Buckets := by
  obtain ⟨hu, w0, w2, conn0, conn, hstart, hloop, hf⟩ := Conn_publishes_from env f w hok
  obtain ⟨hm, hlt, hnd, hlen⟩ := (validateInstances_none_iff f hne).mp hv
  have hempty : conn0.Instances = [] := by
    rcases hstart with ⟨-, -, h⟩ | ⟨-, db0, -, h⟩ <;> rw [h]
  have hkeys : conn.Instances.map Prod.fst = allBuckets f.instances := by
    have := connInstances_keys env f f.instances w0 w2 conn0 conn hloop hnd
      (by intro b _; simp [hempty])
    simpa [hempty] using this
  have hmem : ∀ k, k ∈ conn.Instances.map Prod.fst ↔ 0 ≤ k ∧ k < f.mod := by
    intro k
    rw [hkeys]
    exact ⟨fun hk => ⟨hnn k hk, hlt k hk⟩,
      fun hk => mem_of_nodup_length _ f.mod hnn hlt hnd hlen k hk.1 hk.2⟩
  have hlength : (conn.Instances.length : Int) = f.mod := by
    have h1 : conn.Instances.length = (allBuckets f.instances).length := by
      rw [← hkeys, List.length_map]
    rw [h1]; exact hlen
  refine ⟨conn, by rw [hf], by rw [hkeys]; exact hnd, hlength, hmem, ?_, w0, conn0, hstart, ?_⟩
  · intro s ctx hs hi
    obtain ⟨-, h0, h1⟩ := tmod_eq_specBucket s f.mod hs hm
    obtain ⟨ins, hins⟩ := (mapLookup_isSome_iff conn.Instances (s.tmod f.mod)).mpr
      ((hmem _).mpr ⟨h0, h1⟩)
    refine ⟨ins, hins, ?_⟩
    have hnonempty : conn.Instances ≠ [] := by
      intro hnil
      rw [hnil] at hlength
      simp only [List.length_nil, Nat.cast_zero] at hlength
      omega
    have hnew := New_sharded_lookup { f with connPtr := some conn } conn ctx s hu rfl hi
      hnonempty (by show f.mod ≠ 0; omega)
    rw [hf, hnew]
    show (match mapLookup conn.Instances (s.tmod f.mod) with
      | none => Except.error Panic.nilDeref
      | some ins => Except.ok (newMySQL ctx ins.Master ins.Slave)) = _
    rw [hins]
  · intro pre post ins hsplit
    obtain ⟨w1, w3, conn1, db, hpre, hopen, hlook⟩ :=
      connInstances_entry env f f.instances w0 w2 conn0 conn hloop pre post ins hsplit
    refine ⟨w1, w3, conn1, db, hpre, hopen, ?_⟩
    intro b hb
    rw [hsplit, allBuckets_split] at hnd
    obtain ⟨-, hnd2, hdj1⟩ := List.nodup_append.mp hnd
    obtain ⟨-, -, hdj2⟩ := List.nodup_append.mp hnd2
    refine ⟨hlook b hb (fun hpost => hdj2 hb hpost), ?_⟩
    intro other hother hbo
    rcases List.mem_append.mp hother with ho | ho
    · exact hdj1 (mem_allBuckets pre other b ho hbo) (List.mem_append_left _ hb)
    · exact hdj2 hb (mem_allBuckets post other b ho hbo)

/-- Witness of C12: scenario A on the live server. -/
theorem Conn_bucket_map_covers_witness :
    (NewFactory cfgScenarioA).instances ≠ [] ∧
    (NewFactory cfgScenarioA).validateInstances = none ∧
    (∀ b ∈ allBuckets (NewFactory cfgScenarioA).instances, 0 ≤ b) ∧
    ∃ conn : dbConn, ((NewFactory cfgScenarioA).Conn liveEnv World.init).1.connPtr = some conn ∧
      (conn.Instances.length : Int) = (NewFactory cfgScenarioA).mod ∧
      ∀ k, k ∈ conn.Instances.map Prod.fst ↔ 0 ≤ k ∧ k < (NewFactory cfgScenarioA).mod := by
  have hok : ∀ e, ((NewFactory cfgScenarioA).Conn liveEnv World.init).2.2 ≠ .err e := by
    intro e h
    have hval : ((NewFactory cfgScenarioA).Conn liveEnv World.init).2.2 = .ok := by decide
    rw [hval] at h
    cases h
  obtain ⟨conn, h1, -, h2, h3, -⟩ :=
    Conn_bucket_map_covers liveEnv (NewFactory cfgScenarioA) World.init (by decide) (by decide)
      (by decide) hok
  exact ⟨by decide, by decide, by decide, conn, h1, h2, h3⟩

end GoMysql
